import Mathlib

/-!
Verification development for the Security op-plan reconciliation tool.

Shallow embedding of the reconciliation engine: roster snapshots and the
mutable op-plan table are lists of typed rows whose cells carry a `Val`
(modelling a pandas cell: missing value, string, number, datetime or bool).
Each Python function of the source is translated to an executable Lean
definition of the same name; pandas semantics that matter (NaN-propagation
of `==`/`!=`, `.isin`, `.str.contains(na=False)`, merge key matching,
positional row indices after `reset_index`) are modelled explicitly.
-/

/-- Calendar date (year, month, day), modelling Python `datetime`/`date`
values as they occur in this system. -/
structure SDate where
  year : Nat
  month : Nat
  day : Nat
deriving DecidableEq, Repr

/-- Strict lexicographic order on dates, modelling `<` on Python dates. -/
def sdLt (a b : SDate) : Bool :=
  decide (a.year < b.year) ||
  (decide (a.year = b.year) && (decide (a.month < b.month) ||
    (decide (a.month = b.month) && decide (a.day < b.day))))

/-- A pandas cell value: missing (NaN/NaT/None), string, natural number,
datetime, or boolean.  Numeric cells in this system are whole numbers, so
`nat` covers them. -/
inductive Val where
  | na : Val
  | str : String → Val
  | nat : Nat → Val
  | date : SDate → Val
  | bool : Bool → Val
deriving DecidableEq, Repr

/-- Pandas elementwise `==` against a scalar: any comparison involving a
missing value is false; otherwise structural equality. -/
def valEqv (a b : Val) : Bool :=
  if a = Val.na then false
  else if b = Val.na then false
  else decide (a = b)

/-- Pandas elementwise `!=`: negation of `==`, so a missing value is
unequal to everything (including another missing value). -/
def valNe (a b : Val) : Bool := !(valEqv a b)

/-- Pandas `.notna()`. -/
def vNotna (v : Val) : Bool := !(decide (v = Val.na))

/-- Merge-key / `.isin` equality: pandas matches NaN keys with NaN keys in
`merge` and `isin`, so this is plain structural equality. -/
def keyEq (a b : Val) : Bool := decide (a = b)

/-- Substring occurrence on character lists (used to model
`.str.contains`). -/
def subStr (needle : List Char) : List Char → Bool
  | [] => decide (needle = [])
  | c :: cs => needle.isPrefixOf (c :: cs) || subStr needle cs

/-- Pandas `.str.contains(pat, na=False)`: true only for string cells that
contain the pattern; missing and non-string cells give `False`. -/
def strContains (v : Val) (pat : String) : Bool :=
  match v with
  | Val.str s => subStr pat.data s.data
  | _ => false

/-- Python `str(value)` as used in the name-concatenation guards and
f-strings of the source. -/
def valToStr : Val → String
  | Val.na => "nan"
  | Val.str s => s
  | Val.nat n => toString n
  | Val.date d => toString d.year ++ "-" ++ toString d.month ++ "-" ++ toString d.day
  | Val.bool b => if b then "True" else "False"

/-- Pandas `.astype(str)` on a cell (NaN becomes the string "nan"). -/
def astypeStr (v : Val) : Val := Val.str (valToStr v)

/-- Three-letter month abbreviation as produced by `strftime('%b')`. -/
def monthAbbrev : Nat → String
  | 1 => "Jan" | 2 => "Feb" | 3 => "Mar" | 4 => "Apr" | 5 => "May" | 6 => "Jun"
  | 7 => "Jul" | 8 => "Aug" | 9 => "Sep" | 10 => "Oct" | 11 => "Nov" | 12 => "Dec"
  | _ => ""

/-- Inverse of `monthAbbrev` for `strptime('%b')`. -/
def monthOfAbbrev (s : List Char) : Option Nat :=
  (List.range 12).findSome? (fun i =>
    if (monthAbbrev (i + 1)).data = s then some (i + 1) else none)

/-- Two-digit zero-padded year as produced by `strftime('%y')`. -/
def pad2 (n : Nat) : String :=
  if n < 10 then "0" ++ toString n else toString n

/-- `strftime('%b-%y')` on a date: the month-year label strings this
system writes into Start/End Date cells. -/
def fmtMonYY (d : SDate) : String :=
  monthAbbrev d.month ++ "-" ++ pad2 (d.year % 100)

/-- Parse the digits of a character list as a number, failing on
non-digits or the empty list. -/
def digitsToNat : List Char → Option Nat
  | [] => none
  | cs => cs.foldl (fun acc c =>
      match acc with
      | none => none
      | some n => if c.isDigit then some (n * 10 + (c.toNat - 48)) else none)
      (some 0)

/-- `strptime(s, '%y')` century rule: two-digit years 00-68 map to 20xx,
69-99 to 19xx. -/
def expandY2 (yy : Nat) : Nat := if yy ≤ 68 then 2000 + yy else 1900 + yy

/-- Split a character list at the first occurrence of a separator. -/
def splitAtChar (sep : Char) : List Char → Option (List Char × List Char)
  | [] => none
  | c :: cs =>
    if c = sep then some ([], cs)
    else match splitAtChar sep cs with
      | some (l, r) => some (c :: l, r)
      | none => none

/-- `datetime.strptime(s, '%b-%y')`, yielding the first day of the named
month, or failure.  Matches the `'%b-%y'` labels this system produces
(abbreviated month, dash, two-digit year); other strings fail, which is
what the source relies on for `'-'` placeholders and numeric strings. -/
def parseMonYY (s : String) : Option SDate :=
  match splitAtChar (Char.ofNat 45) s.data with
  | none => none
  | some (ms, ys) =>
    match monthOfAbbrev ms, digitsToNat ys with
    | some m, some yy => if ys.length = 2 then some ⟨expandY2 yy, m, 1⟩ else none
    | _, _ => none

/-- One roster-snapshot record, with the op-plan column names the loader
installs via `COLUMN_MAPPING_FTE` (`Employee Group (Name)` is already
`Resource Type`, `Username` is `LANID`, and so on). -/
structure StaticRow where
  employeeId : Val
  legalFirstName : Val
  legalSurname : Val
  resourceType : Val
  supervisorId : Val
  supervisorFirstName : Val
  supervisorSurname : Val
  roleType : Val
  jobGrade : Val
  fteNum : Val
  fteCategory : Val
  lanid : Val
  planningUnitCountry : Val
  domain : Val
  techArea : Val
deriving DecidableEq, Repr

/-- One FTE op-plan row: the 29 declared `OP_FTE_COLUMNS` plus the three
working columns (`Fulfilled`, `Skip`, `Line Manager`) the pipeline adds. -/
structure OpRow where
  resourceType : Val
  inputStretch : Val
  employeeId : Val
  fteName : Val
  lanid : Val
  roleType : Val
  jobGrade : Val
  fteCountry : Val
  domain : Val
  techArea : Val
  planningUnitCountry : Val
  squad : Val
  service : Val
  asset : Val
  product : Val
  techFinancialReform : Val
  ftetApprovalRef : Val
  fteNum : Val
  headcount : Val
  startDate : Val
  endDate : Val
  comments : Val
  freeInput : Val
  runPct : Val
  divChangePct : Val
  techProjPct : Val
  totalPct : Val
  roleStatus : Val
  modified : Val
  fulfilled : Val
  skip : Val
  lineManager : Val
deriving DecidableEq, Repr

/-- One MS op-plan row, restricted to the columns the MS matcher and
lifecycle passes read (`Resource Name` plays the role of the display
name). -/
structure MsRow where
  resourceType : Val
  resourceName : Val
  employeeId : Val
  lanid : Val
  roleStatus : Val
  fulfilled : Val
  skip : Val
  startDate : Val
  endDate : Val
deriving DecidableEq, Repr

/-- Positions (0-based) of the rows of a list satisfying a predicate,
modelling `df[mask].index` on a table with a fresh `RangeIndex`. -/
def filterIdxAux (p : α → Bool) : List α → Nat → List Nat
  | [], _ => []
  | a :: as, n =>
    if p a then n :: filterIdxAux p as (n + 1) else filterIdxAux p as (n + 1)

/-- Entry point of `filterIdxAux` starting at position 0. -/
def filterIdx (p : α → Bool) (l : List α) : List Nat := filterIdxAux p l 0

/-- Apply `f` to the rows at the given positions, modelling the
`df.at[emp_index, ...] = ...` update loops of the source. -/
def updRowsAux (f : α → α) (idxs : List Nat) : List α → Nat → List α
  | [], _ => []
  | a :: as, n =>
    (if idxs.contains n then f a else a) :: updRowsAux f idxs as (n + 1)

/-- Entry point of `updRowsAux` starting at position 0. -/
def updRows (f : α → α) (idxs : List Nat) (l : List α) : List α :=
  updRowsAux f idxs l 0

/-- Strict matching policy, FTE variant
(`employee_filtering_condition_fte`): the row-level boolean mask. -/
def employee_filtering_condition_fte (employee_id : Val) (r : OpRow) : Bool :=
  valNe r.resourceType (Val.str ("Stretch")) &&
  !(strContains r.fteName ("Vacant")) &&
  valEqv r.employeeId employee_id &&
  vNotna r.employeeId &&
  vNotna r.lanid &&
  valNe r.roleStatus (Val.str ("Missing from Op FTE")) &&
  valNe r.fulfilled (Val.str ("Yes")) &&
  valNe r.skip (Val.str ("Past"))

/-- Index set returned by the FTE Strict policy. -/
def employee_filtering_condition_fte_idx (df : List OpRow) (employee_id : Val) : List Nat :=
  filterIdx (employee_filtering_condition_fte employee_id) df

/-- Relaxed matching policy, FTE variant
(`shorten_filtering_condition_fte`): the Strict mask minus the Fulfilled
and Skip exclusions. -/
def shorten_filtering_condition_fte (employee_id : Val) (r : OpRow) : Bool :=
  valNe r.resourceType (Val.str ("Stretch")) &&
  !(strContains r.fteName ("Vacant")) &&
  valEqv r.employeeId employee_id &&
  vNotna r.employeeId &&
  vNotna r.lanid &&
  valNe r.roleStatus (Val.str ("Missing from Op FTE"))

/-- Index set returned by the FTE Relaxed policy. -/
def shorten_filtering_condition_fte_idx (df : List OpRow) (employee_id : Val) : List Nat :=
  filterIdx (shorten_filtering_condition_fte employee_id) df

/-- Strict matching policy, MS variant
(`employee_filtering_condition_ms`).  Note: unlike the FTE variant, the
source applies no `Stretch` and no `Vacant` exclusion here. -/
def employee_filtering_condition_ms (employee_id : Val) (r : MsRow) : Bool :=
  valEqv r.employeeId employee_id &&
  vNotna r.employeeId &&
  vNotna r.lanid &&
  valNe r.fulfilled (Val.str ("Yes")) &&
  valNe r.roleStatus (Val.str ("Missing from Op MS")) &&
  valNe r.skip (Val.str ("Past"))

/-- Index set returned by the MS Strict policy. -/
def employee_filtering_condition_ms_idx (df : List MsRow) (employee_id : Val) : List Nat :=
  filterIdx (employee_filtering_condition_ms employee_id) df

/-- Relaxed matching policy, MS variant (`shorten_filtering_condition_ms`).
This one does carry the `Stretch` and `Vacant` exclusions, on
`Resource Name`. -/
def shorten_filtering_condition_ms (employee_id : Val) (r : MsRow) : Bool :=
  valNe r.resourceType (Val.str ("Stretch")) &&
  !(strContains r.resourceName ("Vacant")) &&
  valEqv r.employeeId employee_id &&
  vNotna r.employeeId &&
  vNotna r.lanid &&
  valNe r.roleStatus (Val.str ("Missing from Op MS"))

/-- Index set returned by the MS Relaxed policy. -/
def shorten_filtering_condition_ms_idx (df : List MsRow) (employee_id : Val) : List Nat :=
  filterIdx (shorten_filtering_condition_ms employee_id) df

/-- Snapshot filter `employee_security_fte` at its default arguments:
Domain == 'Security' and FTE Category == 'FTE'. -/
def employee_security_fte (df : List StaticRow) : List StaticRow :=
  df.filter (fun r =>
    valEqv r.domain (Val.str ("Security")) &&
    valEqv r.fteCategory (Val.str ("FTE")))

/-- Snapshot filter `employee_security_ms` at its default arguments:
Domain == 'Security' and FTE Category == 'Non-FTE'. -/
def employee_security_ms (df : List StaticRow) : List StaticRow :=
  df.filter (fun r =>
    valEqv r.domain (Val.str ("Security")) &&
    valEqv r.fteCategory (Val.str ("Non-FTE")))

/-- `get_eofy`: September 1 of the current year if the wall-clock month is
at most September, else September 1 of the next year.  The wall-clock date
`datetime.now()` is passed explicitly. -/
def get_eofy (today : SDate) : SDate :=
  if today.month > 9 then ⟨today.year + 1, 9, 1⟩ else ⟨today.year, 9, 1⟩

/-- Separator set of `re.sub(r'[\s,+\-()]+', '_', ...)` in
`format_tech_area`. -/
def isTechSep (c : Char) : Bool :=
  c = ' ' || c = '\t' || c = '\n' || c = ',' || c = '+' || c = '-' || c = '(' || c = ')'

/-- Separator set of `re.sub(r'[\s,-]+', '_', ...)` in `format_domain`. -/
def isDomSep (c : Char) : Bool :=
  c = ' ' || c = '\t' || c = '\n' || c = ',' || c = '-'

/-- Collapse adjacent duplicates of the underscore produced by the
regex substitutions (a `+`-run maps to one underscore). -/
def dedupUnd : List Char → List Char
  | [] => []
  | [c] => [c]
  | a :: b :: rest =>
    if a = '_' && b = '_' then dedupUnd (b :: rest) else a :: dedupUnd (b :: rest)

/-- Python `str.strip('_')`. -/
def stripUnd (l : List Char) : List Char :=
  ((l.dropWhile (fun c => c = '_')).reverse.dropWhile (fun c => c = '_')).reverse

/-- One `re.sub(r'[...]+', '_', s).strip('_')` pass. -/
def regexSubStrip (isSep : Char → Bool) (l : List Char) : List Char :=
  stripUnd (dedupUnd (l.map (fun c => if isSep c then '_' else c)))

/-- `format_tech_area`: substitute separators, force the `Security_`
prefix, substitute again; non-strings pass through unchanged. -/
def format_tech_area (v : Val) : Val :=
  match v with
  | Val.str s =>
    let step1 := regexSubStrip isTechSep s.data
    let step2 :=
      if ("Security_").data.isPrefixOf step1 then step1
      else ("Security_").data ++ step1
    Val.str ⟨regexSubStrip isTechSep step2⟩
  | w => w

/-- `format_domain`: force the `Domain` suffix, then substitute
separators; non-strings pass through unchanged. -/
def format_domain (v : Val) : Val :=
  match v with
  | Val.str s =>
    let step1 :=
      if ("Domain").data.isSuffixOf s.data then s.data
      else s.data ++ ("_Domain").data
    Val.str ⟨regexSubStrip isDomSep step1⟩
  | w => w

/-- `map_to_hub_FTE`: `hub_mapping.get(country, country)`. -/
def map_to_hub_FTE (country : Val) : Val :=
  if country = Val.str ("India") then Val.str ("India Hub")
  else if country = Val.str ("Philippines") then Val.str ("Manila Hub")
  else if country = Val.str ("Australia") then Val.str ("Australia")
  else country

/-- Models `pd.to_datetime(value, errors='coerce')` on the Start/End Date
cells this system produces: datetimes pass through, the month-year label
strings parse to the named month (other strings, placeholders such as
`'-'`, and missing values coerce to NaT = `na`). -/
def pd_to_datetime (v : Val) : Val :=
  match v with
  | Val.date d => Val.date d
  | Val.str s =>
    match parseMonYY s with
    | some d => Val.date d
    | none => Val.na
  | _ => Val.na

/-- The End Date parsing of `initiate_skip_column_fte`/`_ms`: datetime
values are taken as-is; numeric values become `str(int(v))` and then go
through `strptime('%b-%y')` (which always fails on digit strings);
strings go through `strptime('%b-%y')`; anything else yields nothing. -/
def parse_end_date (v : Val) : Option SDate :=
  match v with
  | Val.date d => some d
  | Val.str s => parseMonYY s
  | Val.nat n => parseMonYY (toString n)
  | Val.bool b => parseMonYY (toString (cond b 1 0))
  | Val.na => none

/-- `initiate_skip_column_fte`: initialise Skip to `''`, then tag `'Past'`
exactly when the End Date parses and falls strictly before the static
report date (parse failures leave the row untagged and processing
continues). -/
def initiate_skip_column_fte (static_report_date : SDate) (op_fte_df : List OpRow) : List OpRow :=
  op_fte_df.map (fun r =>
    { r with skip :=
        match parse_end_date r.endDate with
        | some d => if sdLt d static_report_date then Val.str ("Past") else Val.str ("")
        | none => Val.str ("") })

/-- `initiate_skip_column_ms`: identical logic on the MS table. -/
def initiate_skip_column_ms (static_report_date : SDate) (op_ms_df : List MsRow) : List MsRow :=
  op_ms_df.map (fun r =>
    { r with skip :=
        match parse_end_date r.endDate with
        | some d => if sdLt d static_report_date then Val.str ("Past") else Val.str ("")
        | none => Val.str ("") })

/-- The `skip_statuses` literal of `check_and_mark_fulfilled_fte`. -/
def skip_statuses_fte : List String :=
  [("New Hire"), ("Transfer In"), ("Conversion"), ("Internal Mobility"),
   ("Location Change"), ("Missing from Op FTE")]

/-- The `skip_statuses` literal of `check_and_mark_fulfilled_ms`. -/
def skip_statuses_ms : List String :=
  [("New Hire"), ("Transfer In"), ("Conversion"), ("Internal Mobility"),
   ("Location Change"), ("Missing from Op MS")]

/-- `Series.isin(statuses)` on a Role Status cell: exact membership. -/
def roleStatusIsin (v : Val) (statuses : List String) : Bool :=
  statuses.any (fun s => decide (v = Val.str s))

/-- `sort_values(by='Start Date')` comparison with missing dates last. -/
def startLe (a b : OpRow) : Bool :=
  match a.startDate, b.startDate with
  | Val.date x, Val.date y => !(sdLt y x)
  | Val.date _, _ => true
  | _, Val.date _ => false
  | _, _ => true

/-- Insertion step of the Start Date sort. -/
def insertByStart (a : OpRow) : List OpRow → List OpRow
  | [] => [a]
  | b :: bs => if startLe a b then a :: b :: bs else b :: insertByStart a bs

/-- Sort an employee group by Start Date (missing dates last). -/
def sortByStart : List OpRow → List OpRow
  | [] => []
  | a :: as => insertByStart a (sortByStart as)

/-- The multi-role date check of the Fulfilled pass: consecutive rows
(sorted by Start Date) must have parseable boundary dates with each End
Date strictly before the next Start Date. -/
def datesNonOverlap : List OpRow → Bool
  | a :: b :: rest =>
    (match a.endDate, b.startDate with
     | Val.date e, Val.date s => sdLt e s && datesNonOverlap (b :: rest)
     | _, _ => false)
  | _ => true

/-- First snapshot row for an employee id under pandas `==` selection. -/
def firstWithId (df : List StaticRow) (eid : Val) : Option StaticRow :=
  df.find? (fun r => valEqv r.employeeId eid)

/-- The FTE roster-unchanged comparison over
`['Employee ID', 'Tech Area', 'Domain', 'Resource Type', 'Job Grade']`. -/
def unchangedFTE (c n : StaticRow) : Bool :=
  valEqv c.employeeId n.employeeId && valEqv c.techArea n.techArea &&
  valEqv c.domain n.domain && valEqv c.resourceType n.resourceType &&
  valEqv c.jobGrade n.jobGrade

/-- The MS roster-unchanged comparison over
`['Tech Area', 'Domain', 'FTE Category', 'Resource Type']`. -/
def unchangedMS (c n : StaticRow) : Bool :=
  valEqv c.techArea n.techArea && valEqv c.domain n.domain &&
  valEqv c.fteCategory n.fteCategory && valEqv c.resourceType n.resourceType

/-- Whether a given employee's group gets `Fulfilled = 'Yes'` in the FTE
pass: groups containing a `skip_statuses` row are exempted; otherwise
either the multi-role date check or the roster-unchanged check marks the
whole group. -/
def fulfilledVerdictFTE (current next : List StaticRow) (op1 : List OpRow) (eid : Val) : Bool :=
  let group := op1.filter (fun r => decide (r.employeeId = eid))
  if group.any (fun r => roleStatusIsin r.roleStatus skip_statuses_fte) then false
  else
    let multi := decide (group.length > 1) && datesNonOverlap (sortByStart group)
    let unchanged :=
      match firstWithId current eid, firstWithId next eid with
      | some c, some n => unchangedFTE c n
      | _, _ => false
    multi || unchanged

/-- `check_and_mark_fulfilled_fte`: coerce Start/End Date to datetimes,
reset Fulfilled, then mark each (non-missing-id) employee group whose
verdict is positive.  Rows with a missing Employee ID fall outside every
`groupby` group and keep `Fulfilled = ''`. -/
def check_and_mark_fulfilled_fte (current next : List StaticRow) (op_fte_df : List OpRow) : List OpRow :=
  let op1 := op_fte_df.map (fun r =>
    { r with startDate := pd_to_datetime r.startDate,
             endDate := pd_to_datetime r.endDate,
             fulfilled := Val.str ("") })
  op1.map (fun r =>
    if vNotna r.employeeId && fulfilledVerdictFTE current next op1 r.employeeId
    then { r with fulfilled := Val.str ("Yes") } else r)

/-- MS variant of `startLe` on `MsRow`. -/
def startLeMS (a b : MsRow) : Bool :=
  match a.startDate, b.startDate with
  | Val.date x, Val.date y => !(sdLt y x)
  | Val.date _, _ => true
  | _, Val.date _ => false
  | _, _ => true

/-- Insertion step of the MS Start Date sort. -/
def insertByStartMS (a : MsRow) : List MsRow → List MsRow
  | [] => [a]
  | b :: bs => if startLeMS a b then a :: b :: bs else b :: insertByStartMS a bs

/-- MS variant of the Start Date sort. -/
def sortByStartMS : List MsRow → List MsRow
  | [] => []
  | a :: as => insertByStartMS a (sortByStartMS as)

/-- MS variant of the multi-role date check. -/
def datesNonOverlapMS : List MsRow → Bool
  | a :: b :: rest =>
    (match a.endDate, b.startDate with
     | Val.date e, Val.date s => sdLt e s && datesNonOverlapMS (b :: rest)
     | _, _ => false)
  | _ => true

/-- MS group verdict, mirroring `fulfilledVerdictFTE`. -/
def fulfilledVerdictMS (current next : List StaticRow) (op1 : List MsRow) (eid : Val) : Bool :=
  let group := op1.filter (fun r => decide (r.employeeId = eid))
  if group.any (fun r => roleStatusIsin r.roleStatus skip_statuses_ms) then false
  else
    let multi := decide (group.length > 1) && datesNonOverlapMS (sortByStartMS group)
    let unchanged :=
      match firstWithId current eid, firstWithId next eid with
      | some c, some n => unchangedMS c n
      | _, _ => false
    multi || unchanged

/-- `check_and_mark_fulfilled_ms`: the MS fulfilled pass. -/
def check_and_mark_fulfilled_ms (current next : List StaticRow) (op_ms_df : List MsRow) : List MsRow :=
  let op1 := op_ms_df.map (fun r =>
    { r with startDate := pd_to_datetime r.startDate,
             endDate := pd_to_datetime r.endDate,
             fulfilled := Val.str ("") })
  op1.map (fun r =>
    if vNotna r.employeeId && fulfilledVerdictMS current next op1 r.employeeId
    then { r with fulfilled := Val.str ("Yes") } else r)

/-- `add_new_entries_fte`: concatenate the collected new entries after the
table (`pd.concat` with `ignore_index=True` over reset indices). -/
def add_new_entries_fte (op_fte_df : List OpRow) (new_entries : List OpRow) : List OpRow :=
  if new_entries.isEmpty then op_fte_df else op_fte_df ++ new_entries

/-- The row every FTE Entry Builder call starts from:
`pd.Series(CONFIG['COLUMN_VALUES_FTE'], index=CONFIG['OP_FTE_COLUMNS'])` —
columns present in the defaults dictionary get their default, every other
declared column gets NaN, and the three working columns (absent from the
Series) also surface as NaN after `pd.concat`. -/
def emptyEntryFTE : OpRow where
  resourceType := Val.na
  inputStretch := Val.na
  employeeId := Val.na
  fteName := Val.na
  lanid := Val.na
  roleType := Val.na
  jobGrade := Val.na
  fteCountry := Val.na
  domain := Val.na
  techArea := Val.na
  planningUnitCountry := Val.na
  squad := Val.str ("-")
  service := Val.str ("-")
  asset := Val.str ("-")
  product := Val.str ("-")
  techFinancialReform := Val.str ("Select Dropdown")
  ftetApprovalRef := Val.str ("-")
  fteNum := Val.na
  headcount := Val.nat 1
  startDate := Val.na
  endDate := Val.na
  comments := Val.str ("-")
  freeInput := Val.str ("-")
  runPct := Val.str ("-")
  divChangePct := Val.str ("-")
  techProjPct := Val.str ("-")
  totalPct := Val.str ("-")
  roleStatus := Val.na
  modified := Val.na
  fulfilled := Val.na
  skip := Val.na
  lineManager := Val.na

/-- The `str(...) if pd.notna(...) else ''` guard around name parts. -/
def nameStr (v : Val) : String := if v = Val.na then "" else valToStr v

/-- The FTE Entry Builder shared (verbatim, copy-pasted in the source) by
the new-joiner, transfer-in, conversion and missing-employee detectors:
defaults, then the `COLUMN_MAPPING_FTE` overlay (after the loader's rename
only the `Employee ID` key still matches a column of `row`), then the
explicit field assignments.  `key` is the merge-key Employee ID, `src` the
snapshot row supplying the business fields, `startV`/`endV`/`status` the
per-detector Start Date, End Date and Role Status. -/
def buildEntryFTE (key : Val) (src : StaticRow) (startV endV : Val) (status : String) : OpRow :=
  { emptyEntryFTE with
    resourceType := src.resourceType
    fteName := Val.str (nameStr src.legalFirstName ++ " " ++ nameStr src.legalSurname)
    employeeId := key
    lanid := src.lanid
    roleType := src.roleType
    jobGrade := src.jobGrade
    fteCountry := map_to_hub_FTE src.planningUnitCountry
    domain := format_domain src.domain
    techArea := format_tech_area src.techArea
    planningUnitCountry := src.planningUnitCountry
    fteNum := src.fteNum
    startDate := startV
    endDate := endV
    roleStatus := Val.str status
    modified := Val.bool true }

/-- Inner merge of two snapshots on `Employee ID`
(`pd.merge(..., on='Employee ID')`): one output pair per matching
left/right combination, in left order. -/
def mergeInner (l r : List StaticRow) : List (StaticRow × StaticRow) :=
  l.flatMap (fun c => (r.filter (fun n => keyEq n.employeeId c.employeeId)).map (fun n => (c, n)))

/-- The exit set: current-month Security+FTE employees whose Employee ID
has no match in the next month's snapshot (`_merge == 'left_only'` of the
left merge onto `next_df[['Employee ID']]`). -/
def exitsOf (current next : List StaticRow) : List StaticRow :=
  (employee_security_fte current).filter (fun r =>
    !(next.any (fun n => keyEq n.employeeId r.employeeId)))

/-- The per-row mutation of the Exit detector.  Note the source assigns the
parsed `datetime.date` object, not the `'%b-%y'` label string. -/
def exitUpd (fd : SDate) (row : OpRow) : OpRow :=
  { row with endDate := Val.date fd, roleStatus := Val.str ("Exit"), modified := Val.bool true }

/-- Per-exit body of `identify_exits_fte`: close out every Relaxed-matched
row of the exiting employee. -/
def identify_exits_fte_step (fd : SDate) (acc : List OpRow) (r : StaticRow) : List OpRow :=
  updRows (exitUpd fd) (shorten_filtering_condition_fte_idx acc r.employeeId) acc

/-- `identify_exits_fte`: close out, via the Relaxed matcher, every row of
each employee present in the current filtered snapshot and absent from the
next snapshot. -/
def identify_exits_fte (current next : List StaticRow) (op_fte_df : List OpRow)
    (file_date : String × String) : List OpRow :=
  if file_date.1 = "" then op_fte_df
  else
    match parseMonYY file_date.1 with
    | none => op_fte_df
    | some fd =>
      (exitsOf current next).foldl (identify_exits_fte_step fd) op_fte_df

/-- The `current_cwr_not_security` sub-filter of the New Joiner detector. -/
def cwrNotSecurity (current : List StaticRow) : List StaticRow :=
  current.filter (fun c =>
    valNe c.domain (Val.str ("Security")) && valEqv c.fteCategory (Val.str ("Non-FTE")))

/-- The New Joiner candidate set: next-month Security+FTE employees not in
the current snapshot (condition 1) concatenated with those who were
non-Security CWRs in the current month (condition 2); the source comments
out the `drop_duplicates()`. -/
def new_joiners_of (current next : List StaticRow) : List StaticRow :=
  let ns := employee_security_fte next
  let cond1 := ns.filter (fun r => !(current.any (fun c => keyEq c.employeeId r.employeeId)))
  let cond2 := ns.filter (fun r =>
    (cwrNotSecurity current).any (fun c => keyEq c.employeeId r.employeeId))
  cond1 ++ cond2

/-- Per-joiner body of `identify_new_joiners_fte`. -/
def identify_new_joiners_fte_step (first_day eofy : String)
    (st : List OpRow × List OpRow) (r : StaticRow) : List OpRow × List OpRow :=
  let idxs := employee_filtering_condition_fte_idx st.1 r.employeeId
  if idxs.isEmpty then
    (st.1, st.2 ++ [buildEntryFTE r.employeeId r (Val.str first_day) (Val.str eofy) ("New Hire")])
  else
    (updRows (fun row => { row with roleStatus := Val.str ("New Hire"), modified := Val.bool true })
      idxs st.1, st.2)

/-- `identify_new_joiners_fte`: Strict-matched rows get Role Status
`'New Hire'`; employees with no Strict match get a freshly built entry with
Start Date the period-start label and End Date the financial-year-end. -/
def identify_new_joiners_fte (current next : List StaticRow) (op_fte_df : List OpRow)
    (file_date : String × String) (today : SDate) : List OpRow :=
  match parseMonYY file_date.2 with
  | none => op_fte_df
  | some sd =>
    let eofy := fmtMonYY (get_eofy today)
    let first_day := fmtMonYY sd
    let res := (new_joiners_of current next).foldl
      (identify_new_joiners_fte_step first_day eofy) (op_fte_df, [])
    add_new_entries_fte res.1 res.2

/-- The Transfer In candidate set: inner merge of the full current snapshot
with the next-month Security+FTE subset, keeping pairs whose current Domain
is not Security, current category is FTE, and Resource Type is unchanged. -/
def transfers_in_of (current next : List StaticRow) : List (StaticRow × StaticRow) :=
  (mergeInner current (employee_security_fte next)).filter (fun p =>
    valNe p.1.domain (Val.str ("Security")) &&
    valEqv p.1.fteCategory (Val.str ("FTE")) &&
    valEqv p.1.resourceType p.2.resourceType)

/-- Per-index body of the matched branch of `identify_transfers_in_fte`:
the existence check runs against the live table before each update. -/
def identify_transfers_in_fte_inner (eofy : String) (p : StaticRow × StaticRow)
    (acc : List OpRow) (i : Nat) : List OpRow :=
  let existing := acc.filter (fun q =>
    valEqv q.employeeId p.1.employeeId &&
    valEqv q.domain p.2.domain &&
    valEqv q.endDate (Val.str eofy))
  if existing.isEmpty then
    updRows (fun row =>
      { row with roleStatus := Val.str ("Transfer In"), modified := Val.bool true }) [i] acc
  else acc

/-- Per-candidate body of `identify_transfers_in_fte`. -/
def identify_transfers_in_fte_step (first_day eofy : String)
    (st : List OpRow × List OpRow) (p : StaticRow × StaticRow) : List OpRow × List OpRow :=
  let idxs := employee_filtering_condition_fte_idx st.1 p.1.employeeId
  if idxs.isEmpty then
    (st.1, st.2 ++ [buildEntryFTE p.1.employeeId p.2 (Val.str first_day) (Val.str eofy) ("Transfer In")])
  else
    (idxs.foldl (identify_transfers_in_fte_inner eofy p) st.1, st.2)

/-- `identify_transfers_in_fte`: Strict-matched rows get Role Status
`'Transfer In'` unless a row with the same Employee ID, next Domain and
End Date = financial-year-end already exists; with no Strict match a new
entry is built. -/
def identify_transfers_in_fte (current next : List StaticRow) (op_fte_df : List OpRow)
    (file_date : String × String) (today : SDate) : List OpRow :=
  match parseMonYY file_date.2 with
  | none => op_fte_df
  | some sd =>
    let eofy := fmtMonYY (get_eofy today)
    let first_day := fmtMonYY sd
    let res := (transfers_in_of current next).foldl
      (identify_transfers_in_fte_step first_day eofy) (op_fte_df, [])
    add_new_entries_fte res.1 res.2

/-- The Transfer Out candidate set: left merge of the current Security+FTE
subset with the full next snapshot, keeping matched (`'both'`) pairs whose
next Domain is not Security and next category is FTE. -/
def transfers_out_of (current next : List StaticRow) : List (StaticRow × StaticRow) :=
  (mergeInner (employee_security_fte current) next).filter (fun p =>
    valNe p.2.domain (Val.str ("Security")) &&
    valEqv p.2.fteCategory (Val.str ("FTE")))

/-- Per-candidate body of `identify_transfers_out_fte`. -/
def identify_transfers_out_fte_step (last_day : String) (acc : List OpRow)
    (p : StaticRow × StaticRow) : List OpRow :=
  updRows (fun row =>
    { row with endDate := Val.str last_day, roleStatus := Val.str ("Transfer Out"),
               modified := Val.bool true })
    (shorten_filtering_condition_fte_idx acc p.1.employeeId) acc

/-- `identify_transfers_out_fte`: every Relaxed-matched row gets End Date =
the period-end label string (`strftime`), Role Status `'Transfer Out'`, and
Modified. -/
def identify_transfers_out_fte (current next : List StaticRow) (op_fte_df : List OpRow)
    (file_date : String × String) : List OpRow :=
  match parseMonYY file_date.1 with
  | none => op_fte_df
  | some ed =>
    let last_day := fmtMonYY ed
    (transfers_out_of current next).foldl (identify_transfers_out_fte_step last_day) op_fte_df

/-- The Grade Change candidate set: both filtered snapshots inner-merged,
same Resource Type and Tech Area, different Job Grade. -/
def grade_changes_of (current next : List StaticRow) : List (StaticRow × StaticRow) :=
  (mergeInner (employee_security_fte current) (employee_security_fte next)).filter (fun p =>
    valEqv p.1.resourceType p.2.resourceType &&
    valEqv p.1.techArea p.2.techArea &&
    valNe p.1.jobGrade p.2.jobGrade)

/-- The duplicate-insertion existence check of the Grade Change detector:
rows with the same Employee ID, the new Job Grade, and End Date equal to
the financial-year-end label. -/
def gradeChangeExisting (acc : List OpRow) (key nextGrade : Val) (eofy : String) : List OpRow :=
  acc.filter (fun q =>
    valEqv q.employeeId key && valEqv q.jobGrade nextGrade && valEqv q.endDate (Val.str eofy))

/-- Per-index body of `identify_grade_changes_fte`: the existence check
runs against the live table; on pass the row is closed out and the copy
(made after the in-place mutation) queued for appending. -/
def identify_grade_changes_fte_inner (eofy last_day first_day : String)
    (p : StaticRow × StaticRow) (st2 : List OpRow × List OpRow) (i : Nat) :
    List OpRow × List OpRow :=
  if (gradeChangeExisting st2.1 p.1.employeeId p.2.jobGrade eofy).isEmpty then
    let acc2 := updRows (fun row =>
      { row with jobGrade := p.1.jobGrade, endDate := Val.str last_day,
                 roleStatus := Val.str ("Not Current"), modified := Val.bool true }) [i] st2.1
    (acc2, match acc2[i]? with
      | none => st2.2
      | some base =>
        st2.2 ++ [{ base with
          resourceType := p.2.resourceType
          jobGrade := p.2.jobGrade
          fteCountry := map_to_hub_FTE p.2.planningUnitCountry
          domain := format_domain p.2.domain
          techArea := format_tech_area p.2.techArea
          startDate := Val.str first_day
          endDate := Val.str eofy
          roleStatus := Val.str ("Grade Change")
          modified := Val.bool true }])
  else st2

/-- Per-candidate body of `identify_grade_changes_fte`. -/
def identify_grade_changes_fte_step (eofy last_day first_day : String)
    (st : List OpRow × List OpRow) (p : StaticRow × StaticRow) : List OpRow × List OpRow :=
  let idxs := employee_filtering_condition_fte_idx st.1 p.1.employeeId
  if idxs.isEmpty then st
  else idxs.foldl (identify_grade_changes_fte_inner eofy last_day first_day p) st

/-- `identify_grade_changes_fte`: for each Strict-matched row, unless the
existence check fires, close the row out (`'Not Current'`) and append a
copy carrying the new grade with End Date = financial-year-end. -/
def identify_grade_changes_fte (current next : List StaticRow) (op_fte_df : List OpRow)
    (file_date : String × String) (today : SDate) : List OpRow :=
  match parseMonYY file_date.1, parseMonYY file_date.2 with
  | some ed, some sd =>
    let eofy := fmtMonYY (get_eofy today)
    let last_day := fmtMonYY ed
    let first_day := fmtMonYY sd
    let res := (grade_changes_of current next).foldl
      (identify_grade_changes_fte_step eofy last_day first_day) (op_fte_df, [])
    add_new_entries_fte res.1 res.2
  | _, _ => op_fte_df

/-- The Internal Mobility candidate set: both filtered snapshots
inner-merged, same Resource Type, different Tech Area. -/
def internal_mobility_of (current next : List StaticRow) : List (StaticRow × StaticRow) :=
  (mergeInner (employee_security_fte current) (employee_security_fte next)).filter (fun p =>
    valEqv p.1.resourceType p.2.resourceType &&
    valNe p.1.techArea p.2.techArea)

/-- The duplicate-insertion existence check of the Internal Mobility
detector: same Employee ID, the new Tech Area, End Date =
financial-year-end. -/
def mobilityExisting (acc : List OpRow) (key nextArea : Val) (eofy : String) : List OpRow :=
  acc.filter (fun q =>
    valEqv q.employeeId key && valEqv q.techArea nextArea && valEqv q.endDate (Val.str eofy))

/-- Per-candidate body of `identify_internal_mobility_fte`. -/
def identify_internal_mobility_fte_step (eofy last_day first_day : String)
    (st : List OpRow × List OpRow) (p : StaticRow × StaticRow) : List OpRow × List OpRow :=
  let idxs := employee_filtering_condition_fte_idx st.1 p.1.employeeId
  if idxs.isEmpty then st
  else if !(mobilityExisting st.1 p.1.employeeId p.2.techArea eofy).isEmpty then st
  else
    let i := idxs.getLast?.getD 0
    let acc2 := updRows (fun row =>
      { row with techArea := format_tech_area p.1.techArea, endDate := Val.str last_day,
                 roleStatus := Val.str ("Not Current"), modified := Val.bool true }) [i] st.1
    (acc2, match acc2[i]? with
      | none => st.2
      | some base =>
        st.2 ++ [{ base with
          roleType := p.2.roleType
          jobGrade := p.2.jobGrade
          techArea := format_tech_area p.2.techArea
          startDate := Val.str first_day
          endDate := Val.str eofy
          fteNum := p.2.fteNum
          roleStatus := Val.str ("Internal Mobility")
          modified := Val.bool true }])

/-- `identify_internal_mobility_fte`: if the existence check fires for any
Strict-matched index the candidate is skipped; otherwise (because the
update block sits after the index loop) only the **last** Strict-matched
row is closed out and copied into the new Tech Area entry. -/
def identify_internal_mobility_fte (current next : List StaticRow) (op_fte_df : List OpRow)
    (file_date : String × String) (today : SDate) : List OpRow :=
  match parseMonYY file_date.1, parseMonYY file_date.2 with
  | some ed, some sd =>
    let eofy := fmtMonYY (get_eofy today)
    let last_day := fmtMonYY ed
    let first_day := fmtMonYY sd
    let res := (internal_mobility_of current next).foldl
      (identify_internal_mobility_fte_step eofy last_day first_day) (op_fte_df, [])
    add_new_entries_fte res.1 res.2
  | _, _ => op_fte_df

/-- The within-category conversion candidate set: both filtered snapshots
inner-merged, Resource Type changed. -/
def conversions_within_of (current next : List StaticRow) : List (StaticRow × StaticRow) :=
  (mergeInner (employee_security_fte current) (employee_security_fte next)).filter (fun p =>
    valNe p.1.resourceType p.2.resourceType)

/-- The parameterised conversion label the source builds with an f-string. -/
def convLabel (a b : Val) : String :=
  "Conversion from " ++ valToStr a ++ " to " ++ valToStr b

/-- Per-index body of `indetify_conversions_within_fte`. -/
def indetify_conversions_within_fte_inner (eofy last_day first_day : String)
    (p : StaticRow × StaticRow) (st2 : List OpRow × List OpRow) (i : Nat) :
    List OpRow × List OpRow :=
  let label := convLabel p.1.resourceType p.2.resourceType
  let acc2 := updRows (fun row =>
    { row with resourceType := p.1.resourceType, endDate := Val.str last_day,
               roleStatus := Val.str label, modified := Val.bool true }) [i] st2.1
  (acc2, match acc2[i]? with
    | none => st2.2
    | some base =>
      st2.2 ++ [{ base with
        resourceType := p.2.resourceType
        roleType := p.2.roleType
        jobGrade := p.2.jobGrade
        techArea := p.2.techArea
        startDate := Val.str first_day
        endDate := Val.str eofy
        roleStatus := Val.str label
        modified := Val.bool true }])

/-- Per-candidate body of `indetify_conversions_within_fte`. -/
def indetify_conversions_within_fte_step (eofy last_day first_day : String)
    (st : List OpRow × List OpRow) (p : StaticRow × StaticRow) : List OpRow × List OpRow :=
  let label := convLabel p.1.resourceType p.2.resourceType
  let idxs := employee_filtering_condition_fte_idx st.1 p.1.employeeId
  if idxs.isEmpty then
    (st.1, st.2 ++ [buildEntryFTE p.1.employeeId p.2 (Val.str first_day) (Val.str eofy) label])
  else
    idxs.foldl (indetify_conversions_within_fte_inner eofy last_day first_day p) st

/-- `indetify_conversions_within_fte` (source spelling): every
Strict-matched row is closed out with the parameterised conversion label
and a copy with the new Resource Type is appended; with no Strict match a
fresh entry is built (no duplicate-insertion existence check anywhere). -/
def indetify_conversions_within_fte (current next : List StaticRow) (op_fte_df : List OpRow)
    (file_date : String × String) (today : SDate) : List OpRow :=
  match parseMonYY file_date.1, parseMonYY file_date.2 with
  | some ed, some sd =>
    let eofy := fmtMonYY (get_eofy today)
    let last_day := fmtMonYY ed
    let first_day := fmtMonYY sd
    let res := (conversions_within_of current next).foldl
      (indetify_conversions_within_fte_step eofy last_day first_day) (op_fte_df, [])
    add_new_entries_fte res.1 res.2
  | _, _ => op_fte_df

/-- The CWR-to-FTE conversion candidate set: the full current snapshot
inner-merged with the next-month Security+FTE subset, keeping pairs that
were Security Non-FTE in the current month. -/
def conversions_cwr_to_fte_of (current next : List StaticRow) : List (StaticRow × StaticRow) :=
  (mergeInner current (employee_security_fte next)).filter (fun p =>
    valEqv p.1.domain (Val.str ("Security")) &&
    valEqv p.1.fteCategory (Val.str ("Non-FTE")))

/-- The duplicate-insertion existence check of the CWR-to-FTE detector:
same Employee ID, the next Resource Type, End Date = financial-year-end. -/
def cwrToFteExisting (acc : List OpRow) (key nextType : Val) (eofy : String) : List OpRow :=
  acc.filter (fun q =>
    valEqv q.employeeId key && valEqv q.resourceType nextType && valEqv q.endDate (Val.str eofy))

/-- Per-candidate body of `identify_conversions_cwr_to_fte`: note that
the matched branch (Strict match nonempty) does nothing — the loop body
after the existence check's `continue` is empty in the source. -/
def identify_conversions_cwr_to_fte_step (first_day eofy : String)
    (st : List OpRow × List OpRow) (p : StaticRow × StaticRow) : List OpRow × List OpRow :=
  let idxs := employee_filtering_condition_fte_idx st.1 p.1.employeeId
  if idxs.isEmpty then
    (st.1, st.2 ++ [buildEntryFTE p.1.employeeId p.2 (Val.str first_day) (Val.str eofy) ("Conversion to FTE")])
  else st

/-- `identify_conversions_cwr_to_fte`: when a Strict match exists the
matched branch only runs the existence check and logs — it never mutates
nor appends; when no Strict match exists a fresh `'Conversion to FTE'`
entry is appended unconditionally (the existence check is not consulted on
this path). -/
def identify_conversions_cwr_to_fte (current next : List StaticRow) (op_fte_df : List OpRow)
    (file_date : String × String) (today : SDate) : List OpRow :=
  match parseMonYY file_date.2 with
  | none => op_fte_df
  | some sd =>
    let eofy := fmtMonYY (get_eofy today)
    let first_day := fmtMonYY sd
    let res := (conversions_cwr_to_fte_of current next).foldl
      (identify_conversions_cwr_to_fte_step first_day eofy) (op_fte_df, [])
    add_new_entries_fte res.1 res.2

/-- The FTE-to-CWR conversion candidate set: the current Security+FTE
subset inner-merged with the full next snapshot, keeping pairs that are
Security Non-FTE next month. -/
def conversions_fte_to_cwr_of (current next : List StaticRow) : List (StaticRow × StaticRow) :=
  (mergeInner (employee_security_fte current) next).filter (fun p =>
    valEqv p.2.domain (Val.str ("Security")) &&
    valEqv p.2.fteCategory (Val.str ("Non-FTE")))

/-- Per-candidate body of `identify_conversions_fte_to_cwr`. -/
def identify_conversions_fte_to_cwr_step (last_day : String) (acc : List OpRow)
    (p : StaticRow × StaticRow) : List OpRow :=
  updRows (fun row =>
    { row with resourceType := p.1.resourceType, employeeId := p.1.employeeId,
               jobGrade := p.1.jobGrade, endDate := Val.str last_day,
               roleStatus := Val.str ("Conversion from FTE"), modified := Val.bool true })
    (employee_filtering_condition_fte_idx acc p.1.employeeId) acc

/-- `identify_conversions_fte_to_cwr`: every Strict-matched row is closed
out in place (`'Conversion from FTE'`); nothing is ever appended. -/
def identify_conversions_fte_to_cwr (current next : List StaticRow) (op_fte_df : List OpRow)
    (file_date : String × String) : List OpRow :=
  match parseMonYY file_date.1 with
  | none => op_fte_df
  | some ed =>
    let last_day := fmtMonYY ed
    (conversions_fte_to_cwr_of current next).foldl
      (identify_conversions_fte_to_cwr_step last_day) op_fte_df

/-- The Line Manager Change candidate set: both filtered snapshots
inner-merged, Supervisor Employee ID changed. -/
def line_manager_changes_of (current next : List StaticRow) : List (StaticRow × StaticRow) :=
  (mergeInner (employee_security_fte current) (employee_security_fte next)).filter (fun p =>
    valNe p.1.supervisorId p.2.supervisorId)

/-- Per-candidate body of `identify_line_manager_changes_fte`. -/
def identify_line_manager_changes_fte_step (acc : List OpRow)
    (p : StaticRow × StaticRow) : List OpRow :=
  updRows (fun row =>
    { row with modified := Val.bool true,
               lineManager := Val.str (valToStr p.2.supervisorFirstName ++ " " ++ valToStr p.2.supervisorSurname) })
    (shorten_filtering_condition_fte_idx acc p.1.employeeId) acc

/-- `identify_line_manager_changes_fte`: every Relaxed-matched row gets the
next supervisor's name (an f-string over the two name cells) and is marked
Modified; no dates are touched. -/
def identify_line_manager_changes_fte (current next : List StaticRow)
    (op_fte_df : List OpRow) : List OpRow :=
  (line_manager_changes_of current next).foldl
    identify_line_manager_changes_fte_step op_fte_df

/-- The Location Change candidate set: both filtered snapshots
inner-merged, same Resource Type, different Planning Unit Country. -/
def location_changes_of (current next : List StaticRow) : List (StaticRow × StaticRow) :=
  (mergeInner (employee_security_fte current) (employee_security_fte next)).filter (fun p =>
    valEqv p.1.resourceType p.2.resourceType &&
    valNe p.1.planningUnitCountry p.2.planningUnitCountry)

/-- Per-index body of `identify_location_changes_fte`. -/
def identify_location_changes_fte_inner (eofy last_day first_day : String)
    (p : StaticRow × StaticRow) (st2 : List OpRow × List OpRow) (i : Nat) :
    List OpRow × List OpRow :=
  let acc2 := updRows (fun row =>
    { row with fteCountry := map_to_hub_FTE p.1.planningUnitCountry,
               planningUnitCountry := p.1.planningUnitCountry,
               endDate := Val.str last_day,
               roleStatus := Val.str ("Not Current"), modified := Val.bool true }) [i] st2.1
  (acc2, match acc2[i]? with
    | none => st2.2
    | some base =>
      st2.2 ++ [{ base with
        fteCountry := map_to_hub_FTE p.2.planningUnitCountry
        planningUnitCountry := p.2.planningUnitCountry
        startDate := Val.str first_day
        fteNum := p.2.fteNum
        endDate := Val.str eofy
        roleStatus := Val.str ("Location Change")
        modified := Val.bool true }])

/-- Per-candidate body of `identify_location_changes_fte`. -/
def identify_location_changes_fte_step (eofy last_day first_day : String)
    (st : List OpRow × List OpRow) (p : StaticRow × StaticRow) : List OpRow × List OpRow :=
  let idxs := shorten_filtering_condition_fte_idx st.1 p.1.employeeId
  idxs.foldl (identify_location_changes_fte_inner eofy last_day first_day p) st

/-- `identify_location_changes_fte`: every Relaxed-matched row is closed
out (`'Not Current'`, current country) and a copy moved to the next
country with End Date = financial-year-end is appended. -/
def identify_location_changes_fte (current next : List StaticRow) (op_fte_df : List OpRow)
    (file_date : String × String) (today : SDate) : List OpRow :=
  match parseMonYY file_date.1, parseMonYY file_date.2 with
  | some ed, some sd =>
    let eofy := fmtMonYY (get_eofy today)
    let last_day := fmtMonYY ed
    let first_day := fmtMonYY sd
    let res := (location_changes_of current next).foldl
      (identify_location_changes_fte_step eofy last_day first_day) (op_fte_df, [])
    add_new_entries_fte res.1 res.2
  | _, _ => op_fte_df

/-- The Missing Employee candidate rows: the outer merge of the two
filtered snapshots restricted to rows that have a current-month side
(rows with `_merge == 'right_only'` fail both filter conditions, so they
are modelled by omission), paired with the optional next-month match. -/
def missing_left_rows (current next : List StaticRow) : List (StaticRow × Option StaticRow) :=
  let ns := employee_security_fte next
  (employee_security_fte current).flatMap (fun c =>
    let ms := ns.filter (fun n => keyEq n.employeeId c.employeeId)
    if ms.isEmpty then [(c, none)] else ms.map (fun n => (c, some n)))

/-- The Missing Employee filter: condition 1 (in both months, not CWR on
either side after `astype(str)`, not already in the op plan — for rows
with a current side `_merge != 'right_only'` always holds) or condition 2
(current month only, not CWR, not in the op plan). -/
def missing_entries_of (current next : List StaticRow) (op_fte_df : List OpRow) :
    List (StaticRow × Option StaticRow) :=
  (missing_left_rows current next).filter (fun p =>
    let rtc := astypeStr p.1.resourceType
    let rtn := astypeStr (match p.2 with | some n => n.resourceType | none => Val.na)
    let inOp := op_fte_df.any (fun q => keyEq q.employeeId p.1.employeeId)
    (!(strContains rtc ("CWR")) && !(strContains rtn ("CWR")) && !inOp) ||
    (!(strContains rtc ("CWR")) && !inOp && p.2.isNone))

/-- `identify_missing_employees_fte`: append a `'Missing from Op FTE'`
entry (built from the current-month fields, Start and End Date `'-'`) for
every candidate. -/
def identify_missing_employees_fte (current next : List StaticRow)
    (op_fte_df : List OpRow) : List OpRow :=
  add_new_entries_fte op_fte_df
    ((missing_entries_of current next op_fte_df).map (fun p =>
      buildEntryFTE p.1.employeeId p.1 (Val.str ("-")) (Val.str ("-")) ("Missing from Op FTE")))

/-- The per-column update rule of the sanity pass: overwrite when the
incoming value is present and differs (Python `!=`). -/
def sanityUpd (old new : Val) : Val :=
  if vNotna new && !(decide (old = new)) then new else old

/-- The business columns the sanity pass overwrites: the intersection of
the renamed snapshot columns with the op-plan columns, minus the exempted
`Planning Unit Country`. -/
def sanityFields (r : OpRow) (crow : StaticRow) : OpRow :=
  { r with employeeId := sanityUpd r.employeeId crow.employeeId
           resourceType := sanityUpd r.resourceType crow.resourceType
           lanid := sanityUpd r.lanid crow.lanid
           roleType := sanityUpd r.roleType crow.roleType
           jobGrade := sanityUpd r.jobGrade crow.jobGrade
           domain := sanityUpd r.domain crow.domain
           techArea := sanityUpd r.techArea crow.techArea
           fteNum := sanityUpd r.fteNum crow.fteNum }

/-- `sanity_checks_fte`: `'Past'`-tagged rows only get Domain/Tech Area
normalisation; otherwise, when the employee is still in the Security
domain (next month, else current month), most business columns are synced
from that snapshot row and Domain/Tech Area are normalised from the
next-month row.  This is the per-row body. -/
def sanity_checks_fte_row (current next : List StaticRow) (r : OpRow) : OpRow :=
  if r.skip = Val.str ("Past") then
    { r with techArea := format_tech_area r.techArea, domain := format_domain r.domain }
  else if r.employeeId = Val.na then r
  else
    match next.find? (fun n => keyEq n.employeeId r.employeeId) with
    | none => r
    | some nrow =>
      let crow? :=
        if !(decide (nrow.domain = Val.str ("Security"))) then
          match current.find? (fun c => valEqv c.employeeId r.employeeId) with
          | none => none
          | some c => if decide (c.domain = Val.str ("Security")) then some c else none
        else some nrow
      match crow? with
      | none => r
      | some crow =>
        { sanityFields r crow with
          techArea := format_tech_area nrow.techArea,
          domain := format_domain nrow.domain }

/-- `sanity_checks_fte` applied row by row. -/
def sanity_checks_fte (current next : List StaticRow) (op_fte_df : List OpRow) : List OpRow :=
  op_fte_df.map (sanity_checks_fte_row current next)

/-- `merge_data_fte`: (re)initialise the `Modified` and `Line Manager`
columns to the empty string on every row. -/
def merge_data_fte (op_fte_df : List OpRow) : List OpRow :=
  op_fte_df.map (fun r => { r with modified := Val.str (""), lineManager := Val.str ("") })

/-- The post-load FTE reconciliation pipeline of `process_fte`: missing
employees, fulfilled tagging, skip tagging, sanity sync, column
initialisation, then the eleven detectors in their fixed order.
`static_report_date` is the parsed period-start date the skip pass derives
from the filename; `today` is the wall-clock date feeding `get_eofy`. -/
def process_fte_core (current next : List StaticRow) (op_fte_df : List OpRow)
    (file_date : String × String) (static_report_date : SDate) (today : SDate) : List OpRow :=
  let op1 := identify_missing_employees_fte current next op_fte_df
  let op2 := check_and_mark_fulfilled_fte current next op1
  let op3 := initiate_skip_column_fte static_report_date op2
  let op4 := sanity_checks_fte current next op3
  let op5 := merge_data_fte op4
  let op6 := identify_exits_fte current next op5 file_date
  let op7 := identify_new_joiners_fte current next op6 file_date today
  let op8 := identify_transfers_in_fte current next op7 file_date today
  let op9 := identify_transfers_out_fte current next op8 file_date
  let op10 := identify_grade_changes_fte current next op9 file_date today
  let op11 := identify_internal_mobility_fte current next op10 file_date today
  let op12 := indetify_conversions_within_fte current next op11 file_date today
  let op13 := identify_conversions_cwr_to_fte current next op12 file_date today
  let op14 := identify_conversions_fte_to_cwr current next op13 file_date
  let op15 := identify_line_manager_changes_fte current next op14
  identify_location_changes_fte current next op15 file_date today

/-- The declared FTE plan schema `CONFIG['OP_FTE_COLUMNS']`. -/
def OP_FTE_COLUMNS : List String :=
  [("Resource Type"),
   ("Input Annualised Stretch $ \n(if applicable)"),
   ("Employee ID"),
   ("FTE Name"),
   ("LANID"),
   ("Role Type"),
   ("Job Grade"),
   ("FTE based Country\n(drives FTE rates calc)"),
   ("Domain"),
   ("Tech Area"),
   ("Planning Unit Country"),
   ("Squad"),
   ("Service"),
   ("Asset"),
   ("Product"),
   ("Tech Financial Reform"),
   ("FTET approval Ref"),
   ("FTE #"),
   ("Headcount"),
   ("Start Date"),
   ("End Date"),
   ("Comments"),
   ("Free Input"),
   ("Run %"),
   ("Divisional Change %"),
   ("Tech Projects %"),
   ("Total %"),
   ("Role Status"),
   ("Modified")]

/-- Projection of an `OpRow` onto a declared column name, for stating
schema-population properties. -/
def rowCell (r : OpRow) (c : String) : Val :=
  if c = "Resource Type" then r.resourceType
  else if c = "Input Annualised Stretch $ \n(if applicable)" then r.inputStretch
  else if c = "Employee ID" then r.employeeId
  else if c = "FTE Name" then r.fteName
  else if c = "LANID" then r.lanid
  else if c = "Role Type" then r.roleType
  else if c = "Job Grade" then r.jobGrade
  else if c = "FTE based Country\n(drives FTE rates calc)" then r.fteCountry
  else if c = "Domain" then r.domain
  else if c = "Tech Area" then r.techArea
  else if c = "Planning Unit Country" then r.planningUnitCountry
  else if c = "Squad" then r.squad
  else if c = "Service" then r.service
  else if c = "Asset" then r.asset
  else if c = "Product" then r.product
  else if c = "Tech Financial Reform" then r.techFinancialReform
  else if c = "FTET approval Ref" then r.ftetApprovalRef
  else if c = "FTE #" then r.fteNum
  else if c = "Headcount" then r.headcount
  else if c = "Start Date" then r.startDate
  else if c = "End Date" then r.endDate
  else if c = "Comments" then r.comments
  else if c = "Free Input" then r.freeInput
  else if c = "Run %" then r.runPct
  else if c = "Divisional Change %" then r.divChangePct
  else if c = "Tech Projects %" then r.techProjPct
  else if c = "Total %" then r.totalPct
  else if c = "Role Status" then r.roleStatus
  else if c = "Modified" then r.modified
  else Val.na

/-- Default `MsRow` used with `List.getD`. -/
def emptyMsRow : MsRow where
  resourceType := Val.na
  resourceName := Val.na
  employeeId := Val.na
  lanid := Val.na
  roleStatus := Val.na
  fulfilled := Val.na
  skip := Val.na
  startDate := Val.na
  endDate := Val.na

/-- Concrete roster record: employee 1001 in Security/FTE, Tech Area
`Security_Cloud`, Job Grade P4. -/
def empAliceP4 : StaticRow where
  employeeId := Val.nat 1001
  legalFirstName := Val.str ("Alice")
  legalSurname := Val.str ("Smith")
  resourceType := Val.str ("Permanent")
  supervisorId := Val.nat 2000
  supervisorFirstName := Val.str ("Bob")
  supervisorSurname := Val.str ("Jones")
  roleType := Val.str ("Engineer")
  jobGrade := Val.str ("P4")
  fteNum := Val.nat 1
  fteCategory := Val.str ("FTE")
  lanid := Val.str ("asmith")
  planningUnitCountry := Val.str ("Australia")
  domain := Val.str ("Security")
  techArea := Val.str ("Security_Cloud")

/-- The same employee next month with Job Grade P5 (all else equal). -/
def empAliceP5 : StaticRow := { empAliceP4 with jobGrade := Val.str ("P5") }

/-- A live, fully matchable plan row for employee 1001. -/
def planRowAlice : OpRow :=
  { emptyEntryFTE with
    resourceType := Val.str ("Permanent")
    employeeId := Val.nat 1001
    fteName := Val.str ("Alice Smith")
    lanid := Val.str ("asmith")
    roleType := Val.str ("Engineer")
    jobGrade := Val.str ("P4")
    domain := Val.str ("Security_Domain")
    techArea := Val.str ("Security_Cloud")
    planningUnitCountry := Val.str ("Australia")
    fteNum := Val.nat 1
    startDate := Val.str ("Jan-24")
    endDate := Val.str ("Sep-24")
    roleStatus := Val.str ("")
    modified := Val.str ("")
    fulfilled := Val.str ("")
    skip := Val.str ("")
    lineManager := Val.str ("") }

/-- C8 scenario: the full post-load pipeline on employee 1001 (P4 to P5,
no pre-existing plan row), reporting period May-24/Jun-24, run on
2024-06-15. -/
def c8Result : List OpRow :=
  process_fte_core [empAliceP4] [empAliceP5] [] (("May-24"), ("Jun-24")) ⟨2024, 6, 1⟩ ⟨2024, 6, 15⟩

/-- C1 counterexample run: Alice exits (present in current filtered set,
absent from the next snapshot) with one Relaxed-matchable plan row. -/
def c1Result : List OpRow :=
  identify_exits_fte [empAliceP4] [] [planRowAlice] (("May-24"), ("Jun-24"))

/-- C2 counterexample run: Alice is a pure new joiner (absent from the
current snapshot, in the next filtered set) and the plan is empty. -/
def c2Result : List OpRow :=
  identify_new_joiners_fte [] [empAliceP5] [] (("May-24"), ("Jun-24")) ⟨2024, 6, 15⟩

/-- Current-month record for the CWR-to-FTE conversion scenario:
employee 1001 is a Security CWR (Non-FTE). -/
def empAliceCwr : StaticRow :=
  { empAliceP4 with fteCategory := Val.str ("Non-FTE"), resourceType := Val.str ("CWR") }

/-- A plan row that already carries the converted state (Employee ID 1001,
Resource Type `Permanent`, End Date = financial-year-end label) but is
frozen by `Fulfilled = 'Yes'`, so the Strict matcher cannot see it. -/
def planRowConverted : OpRow :=
  { planRowAlice with
    roleStatus := Val.str ("Conversion to FTE")
    fulfilled := Val.str ("Yes") }

/-- C3 counterexample run: re-running the CWR-to-FTE detector against a
plan that already contains the matching converted row. -/
def c3Result : List OpRow :=
  identify_conversions_cwr_to_fte [empAliceCwr] [empAliceP4] [planRowConverted]
    (("May-24"), ("Jun-24")) ⟨2024, 6, 15⟩

/-- A plan row mid-conversion, carrying the parameterised label the
within-FTE conversion detector writes. -/
def planRowConvLabel : OpRow :=
  { planRowAlice with
    roleStatus := Val.str ("Conversion from Fixed Term Contract to Permanent")
    startDate := Val.str ("-")
    endDate := Val.str ("-") }

/-- C4 counterexample run: the Fulfilled pass over a group whose only row
carries a parameterised conversion label, with an unchanged roster. -/
def c4Result : List OpRow :=
  check_and_mark_fulfilled_fte [empAliceP4] [empAliceP4] [planRowConvLabel]

/-- A plan row with Role Status `'New Hire'` (exact skip-status literal),
for the C4 witness. -/
def planRowNewHire : OpRow := { planRowAlice with roleStatus := Val.str ("New Hire") }

/-- An MS plan row that is both a Stretch resource and a Vacant name, yet
otherwise matchable. -/
def msStretchRow : MsRow where
  resourceType := Val.str ("Stretch")
  resourceName := Val.str ("Vacant Role")
  employeeId := Val.nat 5
  lanid := Val.str ("lan5")
  roleStatus := Val.str ("")
  fulfilled := Val.str ("")
  skip := Val.str ("")
  startDate := Val.na
  endDate := Val.na

/-- An unremarkable live MS plan row. -/
def msPlainRow : MsRow where
  resourceType := Val.str ("Vendor")
  resourceName := Val.str ("Carol Diaz")
  employeeId := Val.nat 6
  lanid := Val.str ("lan6")
  roleStatus := Val.str ("")
  fulfilled := Val.str ("")
  skip := Val.str ("")
  startDate := Val.na
  endDate := Val.na
theorem valEqv_eq_true {a b : Val} : valEqv a b = true ↔ (a = b ∧ a ≠ Val.na) := by
  unfold valEqv
  split
  next h => simp [h]
  next ha =>
    split
    next hb => subst hb; simp [ha]
    next hb => simp [ha]

theorem mem_filterIdxAux {p : α → Bool} :
    ∀ (l : List α) (n i : Nat),
      i ∈ filterIdxAux p l n ↔ ∃ j, ∃ h : j < l.length, i = n + j ∧ p (l.get ⟨j, h⟩) = true := by
  intro l
  induction l with
  | nil => intro n i; simp [filterIdxAux]
  | cons a as ih =>
    intro n i
    constructor
    · intro hmem
      unfold filterIdxAux at hmem
      by_cases hpa : p a = true
      · rw [if_pos hpa] at hmem
        rcases List.mem_cons.mp hmem with h0 | hrest
        · exact ⟨0, by simp, by omega, hpa⟩
        · rcases (ih (n + 1) i).mp hrest with ⟨j, hj, hij, hpj⟩
          exact ⟨j + 1, by simpa using Nat.succ_lt_succ hj, by omega, hpj⟩
      · rw [if_neg hpa] at hmem
        rcases (ih (n + 1) i).mp hmem with ⟨j, hj, hij, hpj⟩
        exact ⟨j + 1, by simpa using Nat.succ_lt_succ hj, by omega, hpj⟩
    · rintro ⟨j, hj, rfl, hpj⟩
      unfold filterIdxAux
      match j, hj, hpj with
      | 0, hj, hpj =>
        have hpa : p a = true := hpj
        rw [if_pos hpa]
        simp
      | Nat.succ j2, hj, hpj =>
        have hj2 : j2 < as.length := by
          have : j2 + 1 < as.length + 1 := hj
          omega
        have hmem : n + (j2 + 1) ∈ filterIdxAux p as (n + 1) := by
          rw [ih (n + 1) (n + (j2 + 1))]
          exact ⟨j2, hj2, by omega, hpj⟩
        by_cases hpa : p a = true
        · rw [if_pos hpa]
          exact List.mem_cons_of_mem _ hmem
        · rw [if_neg hpa]
          exact hmem

theorem mem_filterIdx {p : α → Bool} {l : List α} {i : Nat} :
    i ∈ filterIdx p l ↔ ∃ h : i < l.length, p (l.get ⟨i, h⟩) = true := by
  unfold filterIdx
  rw [mem_filterIdxAux]
  constructor
  · rintro ⟨j, hj, rfl, hpj⟩
    exact ⟨by simpa using hj, by simpa using hpj⟩
  · rintro ⟨h, hp⟩
    exact ⟨i, h, by omega, hp⟩

theorem filterIdx_eq_nil {p : α → Bool} {l : List α} :
    filterIdx p l = [] ↔ ∀ (i : Nat) (h : i < l.length), p (l.get ⟨i, h⟩) = false := by
  rw [List.eq_nil_iff_forall_not_mem]
  constructor
  · intro h i hi
    by_contra hcon
    exact h i (mem_filterIdx.mpr ⟨hi, by simpa using hcon⟩)
  · intro h i hmem
    rcases mem_filterIdx.mp hmem with ⟨hi, hp⟩
    rw [h i hi] at hp
    cases hp

theorem length_updRowsAux {f : α → α} {idxs : List Nat} :
    ∀ (l : List α) (n : Nat), (updRowsAux f idxs l n).length = l.length := by
  intro l
  induction l with
  | nil => intro n; rfl
  | cons a as ih => intro n; simp [updRowsAux, ih]

theorem length_updRows {f : α → α} {idxs : List Nat} {l : List α} :
    (updRows f idxs l).length = l.length := length_updRowsAux l 0

theorem get_updRowsAux {f : α → α} {idxs : List Nat} :
    ∀ (l : List α) (n i : Nat) (h : i < l.length) (h2 : i < (updRowsAux f idxs l n).length),
      (updRowsAux f idxs l n).get ⟨i, h2⟩ =
        if idxs.contains (n + i) then f (l.get ⟨i, h⟩) else l.get ⟨i, h⟩ := by
  intro l
  induction l with
  | nil => intro n i h h2; cases h
  | cons a as ih =>
    intro n i h h2
    match i with
    | 0 => simp [updRowsAux]
    | Nat.succ i2 =>
      have h3 : i2 < as.length := by
        have : i2 + 1 < as.length + 1 := h
        omega
      have h4 : i2 < (updRowsAux f idxs as (n + 1)).length := by
        rw [length_updRowsAux]; exact h3
      have hrec := ih (n + 1) i2 h3 h4
      have hstep : (updRowsAux f idxs (a :: as) n).get ⟨i2 + 1, h2⟩ =
          (updRowsAux f idxs as (n + 1)).get ⟨i2, h4⟩ := rfl
      rw [hstep, hrec]
      have harith : n + 1 + i2 = n + (i2 + 1) := by omega
      rw [harith]
      rfl

theorem get_updRows {f : α → α} {idxs : List Nat} {l : List α} {i : Nat}
    (h : i < l.length) (h2 : i < (updRows f idxs l).length) :
    (updRows f idxs l).get ⟨i, h2⟩ =
      if idxs.contains i then f (l.get ⟨i, h⟩) else l.get ⟨i, h⟩ := by
  have := @get_updRowsAux _ f idxs l 0 i h h2
  simpa using this

theorem map_updRowsAux_of {f : α → α} {g : α → β} {idxs : List Nat} :
    ∀ (l : List α) (n : Nat),
      (∀ (j : Nat) (h : j < l.length), idxs.contains (n + j) = true →
        g (f (l.get ⟨j, h⟩)) = g (l.get ⟨j, h⟩)) →
      (updRowsAux f idxs l n).map g = l.map g := by
  intro l
  induction l with
  | nil => intro n _; rfl
  | cons a as ih =>
    intro n hcond
    have htail : (updRowsAux f idxs as (n + 1)).map g = as.map g := by
      apply ih (n + 1)
      intro j h hcj
      have harith : n + (j + 1) = n + 1 + j := by omega
      exact hcond (j + 1) (by simpa using Nat.succ_lt_succ h) (by rw [harith]; exact hcj)
    have hhead : g (if idxs.contains n then f a else a) = g a := by
      by_cases hc : idxs.contains n = true
      · rw [if_pos hc]
        exact hcond 0 (by simp) (by simpa using hc)
      · rw [if_neg hc]
    simp only [updRowsAux, List.map]
    rw [htail, hhead]

theorem map_updRows_filterIdx {f : α → α} {g : α → β} {p : α → Bool} {l : List α}
    (hf : ∀ r, p r = true → g (f r) = g r) :
    (updRows f (filterIdx p l) l).map g = l.map g := by
  apply map_updRowsAux_of
  intro j h hc
  apply hf
  have hmem : (0 + j) ∈ filterIdx p l := by simpa using hc
  rcases mem_filterIdx.mp (by simpa using hmem) with ⟨h3, hp⟩
  have : l.get ⟨j, h3⟩ = l.get ⟨j, h⟩ := rfl
  rw [this] at hp
  exact hp

theorem foldl_inv (P : β → Prop) {step : β → α → β} :
    ∀ (l : List α) (init : β), P init →
      (∀ b a, a ∈ l → P b → P (step b a)) → P (l.foldl step init) := by
  intro l
  induction l with
  | nil => intro init h _; exact h
  | cons a as ih =>
    intro init h hstep
    exact ih (step init a) (hstep init a (by simp) h)
      (fun b x hx hb => hstep b x (by simp [hx]) hb)

theorem valNe_ne {x y : Val} (h : valNe x y = true) (hy : y ≠ Val.na) : x ≠ y := by
  intro hxy
  subst hxy
  unfold valNe valEqv at h
  rw [if_neg hy, if_neg hy] at h
  simp at h

theorem vNotna_ne {x : Val} (h : vNotna x = true) : x ≠ Val.na := by
  unfold vNotna at h
  simpa using h

theorem strict_imp_relaxed_fte_cond {eid : Val} {r : OpRow}
    (h : employee_filtering_condition_fte eid r = true) :
    shorten_filtering_condition_fte eid r = true := by
  unfold employee_filtering_condition_fte at h
  unfold shorten_filtering_condition_fte
  simp only [Bool.and_eq_true] at h ⊢
  exact ⟨⟨⟨⟨⟨h.1.1.1.1.1.1.1, h.1.1.1.1.1.1.2⟩, h.1.1.1.1.1.2⟩, h.1.1.1.1.2⟩,
    h.1.1.1.2⟩, h.1.1.2⟩

/-- C10: `get_eofy` anchors the financial-year-end at September 1 — of the
current calendar year when the wall-clock month is no later than
September, of the following year otherwise; it is a function of the
wall-clock date alone (the reporting period is not an argument). -/
theorem get_eofy_september_anchor (t : SDate) :
    (t.month ≤ 9 → get_eofy t = ⟨t.year, 9, 1⟩) ∧
    (9 < t.month → get_eofy t = ⟨t.year + 1, 9, 1⟩) := by
  constructor
  · intro h
    unfold get_eofy
    rw [if_neg (by omega)]
  · intro h
    unfold get_eofy
    rw [if_pos (by omega)]

theorem get_eofy_september_anchor_witness :
    get_eofy ⟨2024, 6, 15⟩ = ⟨2024, 9, 1⟩ ∧ get_eofy ⟨2024, 10, 2⟩ = ⟨2025, 9, 1⟩ :=
  ⟨(get_eofy_september_anchor ⟨2024, 6, 15⟩).1 (by decide),
   (get_eofy_september_anchor ⟨2024, 10, 2⟩).2 (by decide)⟩

/-- C8: on the end-to-end scenario (employee 1001 Security/FTE, Tech Area
`Security_Cloud`, Job Grade P4 now and P5 next month, no pre-existing plan
row) the full FTE reconciliation produces exactly one appended plan row,
with Role Status `'Missing from Op FTE'`: the missing-employee pass seeds
the row before the detectors run, and the grade-change detector — whose
candidate set does contain the employee — finds no Strict match because
that row is excluded, so it adds nothing. -/
theorem missing_seeding_beats_grade_change :
    c8Result.length = 1 ∧
    (c8Result.getD 0 emptyEntryFTE).roleStatus = Val.str ("Missing from Op FTE") ∧
    (c8Result.getD 0 emptyEntryFTE).employeeId = Val.nat 1001 ∧
    grade_changes_of [empAliceP4] [empAliceP5] = [(empAliceP4, empAliceP5)] := by
  decide

/-- C5: Skip tagging, both variants: after the pass a row's Skip flag is
`'Past'` exactly when its End Date is parseable (a datetime value, or a
`'%b-%y'` string, numerics first converted via `str(int(.))`) and falls
strictly before the reporting-period start date; every other row ends the
pass with the empty Skip flag, and no row aborts it. -/
theorem skip_tagging_past_iff (d : SDate) :
    (∀ (op : List OpRow) (i : Nat), i < op.length →
      (initiate_skip_column_fte d op).length = op.length ∧
      (((initiate_skip_column_fte d op).getD i emptyEntryFTE).skip = Val.str ("Past") ↔
        ∃ e, parse_end_date ((op.getD i emptyEntryFTE).endDate) = some e ∧ sdLt e d = true) ∧
      (((initiate_skip_column_fte d op).getD i emptyEntryFTE).skip = Val.str ("Past") ∨
       ((initiate_skip_column_fte d op).getD i emptyEntryFTE).skip = Val.str (""))) ∧
    (∀ (op : List MsRow) (i : Nat), i < op.length →
      (initiate_skip_column_ms d op).length = op.length ∧
      (((initiate_skip_column_ms d op).getD i emptyMsRow).skip = Val.str ("Past") ↔
        ∃ e, parse_end_date ((op.getD i emptyMsRow).endDate) = some e ∧ sdLt e d = true) ∧
      (((initiate_skip_column_ms d op).getD i emptyMsRow).skip = Val.str ("Past") ∨
       ((initiate_skip_column_ms d op).getD i emptyMsRow).skip = Val.str (""))) := by
  constructor
  · intro op i h
    have hlen : (initiate_skip_column_fte d op).length = op.length := by
      simp [initiate_skip_column_fte]
    have hget : (initiate_skip_column_fte d op).getD i emptyEntryFTE =
        { op.getD i emptyEntryFTE with skip :=
            (match parse_end_date ((op.getD i emptyEntryFTE).endDate) with
             | some e => if sdLt e d then Val.str ("Past") else Val.str ("")
             | none => Val.str ("")) } := by
      unfold initiate_skip_column_fte
      rw [List.getD_eq_getElem _ _ (by simpa [initiate_skip_column_fte] using
            (hlen ▸ h)), List.getD_eq_getElem _ _ h, List.getElem_map]
    refine ⟨hlen, ?_, ?_⟩ <;> rw [hget] <;>
      rcases hp : parse_end_date ((op.getD i emptyEntryFTE).endDate) with _ | e
    · simp [hp]
    · by_cases hlt : sdLt e d = true
      · simp [hp, hlt]
      · simp [hp, hlt]
    · simp [hp]
    · by_cases hlt : sdLt e d = true
      · simp [hp, hlt]
      · simp [hp, hlt]
  · intro op i h
    have hlen : (initiate_skip_column_ms d op).length = op.length := by
      simp [initiate_skip_column_ms]
    have hget : (initiate_skip_column_ms d op).getD i emptyMsRow =
        { op.getD i emptyMsRow with skip :=
            (match parse_end_date ((op.getD i emptyMsRow).endDate) with
             | some e => if sdLt e d then Val.str ("Past") else Val.str ("")
             | none => Val.str ("")) } := by
      unfold initiate_skip_column_ms
      rw [List.getD_eq_getElem _ _ (by simpa [initiate_skip_column_ms] using
            (hlen ▸ h)), List.getD_eq_getElem _ _ h, List.getElem_map]
    refine ⟨hlen, ?_, ?_⟩ <;> rw [hget] <;>
      rcases hp : parse_end_date ((op.getD i emptyMsRow).endDate) with _ | e
    · simp [hp]
    · by_cases hlt : sdLt e d = true
      · simp [hp, hlt]
      · simp [hp, hlt]
    · simp [hp]
    · by_cases hlt : sdLt e d = true
      · simp [hp, hlt]
      · simp [hp, hlt]

theorem skip_tagging_past_iff_witness :
    ((initiate_skip_column_fte ⟨2025, 1, 1⟩ [planRowAlice]).getD 0 emptyEntryFTE).skip
      = Val.str ("Past") :=
  ((skip_tagging_past_iff ⟨2025, 1, 1⟩).1 [planRowAlice] 0 (by decide)).2.1.mpr
    ⟨⟨2024, 9, 1⟩, by decide, by decide⟩

/-- C6 counterexample: the MS Strict policy returns a row whose Resource
Type is the synthetic `'Stretch'` marker and whose display name contains
`'Vacant'` — the MS variant applies neither exclusion, so the claimed
properties fail there. -/
theorem ms_strict_returns_stretch_vacant :
    employee_filtering_condition_ms_idx [msStretchRow] (Val.nat 5) = [0] ∧
    msStretchRow.resourceType = Val.str ("Stretch") ∧
    strContains msStretchRow.resourceName ("Vacant") = true := by decide

/-- C6 (amended): every row returned by the Strict policy satisfies, in
the FTE variant, all the listed exclusions (no Stretch, no Vacant name,
Employee ID and LANID present, not `'Missing from Op FTE'`, not
Fulfilled, not Past); in the MS variant all of them except the Stretch
and Vacant exclusions, which `employee_filtering_condition_ms` does not
apply. -/
theorem strict_policy_row_properties :
    (∀ (df : List OpRow) (eid : Val) (i : Nat),
      i ∈ employee_filtering_condition_fte_idx df eid →
      (df.getD i emptyEntryFTE).resourceType ≠ Val.str ("Stretch") ∧
      strContains (df.getD i emptyEntryFTE).fteName ("Vacant") = false ∧
      (df.getD i emptyEntryFTE).employeeId ≠ Val.na ∧
      (df.getD i emptyEntryFTE).lanid ≠ Val.na ∧
      (df.getD i emptyEntryFTE).roleStatus ≠ Val.str ("Missing from Op FTE") ∧
      (df.getD i emptyEntryFTE).fulfilled ≠ Val.str ("Yes") ∧
      (df.getD i emptyEntryFTE).skip ≠ Val.str ("Past")) ∧
    (∀ (df : List MsRow) (eid : Val) (i : Nat),
      i ∈ employee_filtering_condition_ms_idx df eid →
      (df.getD i emptyMsRow).employeeId ≠ Val.na ∧
      (df.getD i emptyMsRow).lanid ≠ Val.na ∧
      (df.getD i emptyMsRow).roleStatus ≠ Val.str ("Missing from Op MS") ∧
      (df.getD i emptyMsRow).fulfilled ≠ Val.str ("Yes") ∧
      (df.getD i emptyMsRow).skip ≠ Val.str ("Past")) := by
  constructor
  · intro df eid i hmem
    rcases mem_filterIdx.mp hmem with ⟨h, hp⟩
    have hgd : df.getD i emptyEntryFTE = df.get ⟨i, h⟩ := by
      rw [List.getD_eq_getElem _ _ h]
      rfl
    rw [hgd]
    unfold employee_filtering_condition_fte at hp
    simp only [Bool.and_eq_true] at hp
    obtain ⟨⟨⟨⟨⟨⟨⟨h1, h2⟩, _⟩, h4⟩, h5⟩, h6⟩, h7⟩, h8⟩ := hp
    exact ⟨valNe_ne h1 (by simp), by simpa using h2, vNotna_ne h4, vNotna_ne h5,
      valNe_ne h6 (by simp), valNe_ne h7 (by simp), valNe_ne h8 (by simp)⟩
  · intro df eid i hmem
    rcases mem_filterIdx.mp hmem with ⟨h, hp⟩
    have hgd : df.getD i emptyMsRow = df.get ⟨i, h⟩ := by
      rw [List.getD_eq_getElem _ _ h]
      rfl
    rw [hgd]
    unfold employee_filtering_condition_ms at hp
    simp only [Bool.and_eq_true] at hp
    obtain ⟨⟨⟨⟨⟨_, h2⟩, h3⟩, h4⟩, h5⟩, h6⟩ := hp
    exact ⟨vNotna_ne h2, vNotna_ne h3, valNe_ne h5 (by simp), valNe_ne h4 (by simp),
      valNe_ne h6 (by simp)⟩

theorem strict_policy_row_properties_witness :
    ([planRowAlice].getD 0 emptyEntryFTE).resourceType ≠ Val.str ("Stretch") ∧
    ([msPlainRow].getD 0 emptyMsRow).skip ≠ Val.str ("Past") :=
  ⟨(strict_policy_row_properties.1 [planRowAlice] (Val.nat 1001) 0 (by decide)).1,
   (strict_policy_row_properties.2 [msPlainRow] (Val.nat 6) 0 (by decide)).2.2.2.2⟩

/-- C7 counterexample: an MS Stretch/Vacant row is matched by the MS
Strict policy but rejected by the MS Relaxed policy, so the Strict index
set is not a subset of the Relaxed one in the MS variant. -/
theorem ms_strict_not_subset_relaxed :
    employee_filtering_condition_ms_idx [msStretchRow] (Val.nat 5) = [0] ∧
    shorten_filtering_condition_ms_idx [msStretchRow] (Val.nat 5) = [] := by decide

/-- C7 (amended): in the FTE variant the Strict index set is contained in
the Relaxed one (the Relaxed policy is the Strict one minus the Fulfilled
and Skip checks); in the MS variant the containment holds only for rows
that also pass the Stretch and Vacant exclusions, which the MS Relaxed
policy applies but the MS Strict policy omits. -/
theorem strict_subset_relaxed :
    (∀ (df : List OpRow) (eid : Val) (i : Nat),
      i ∈ employee_filtering_condition_fte_idx df eid →
      i ∈ shorten_filtering_condition_fte_idx df eid) ∧
    (∀ (df : List MsRow) (eid : Val) (i : Nat),
      i ∈ employee_filtering_condition_ms_idx df eid →
      valNe (df.getD i emptyMsRow).resourceType (Val.str ("Stretch")) = true →
      strContains (df.getD i emptyMsRow).resourceName ("Vacant") = false →
      i ∈ shorten_filtering_condition_ms_idx df eid) := by
  constructor
  · intro df eid i hmem
    rcases mem_filterIdx.mp hmem with ⟨h, hp⟩
    exact mem_filterIdx.mpr ⟨h, strict_imp_relaxed_fte_cond hp⟩
  · intro df eid i hmem hrt hvac
    rcases mem_filterIdx.mp hmem with ⟨h, hp⟩
    have hgd : df.getD i emptyMsRow = df.get ⟨i, h⟩ := by
      rw [List.getD_eq_getElem _ _ h]
      rfl
    rw [hgd] at hrt hvac
    refine mem_filterIdx.mpr ⟨h, ?_⟩
    unfold employee_filtering_condition_ms at hp
    unfold shorten_filtering_condition_ms
    simp only [Bool.and_eq_true] at hp ⊢
    obtain ⟨⟨⟨⟨⟨h1, h2⟩, h3⟩, _⟩, h5⟩, _⟩ := hp
    exact ⟨⟨⟨⟨⟨hrt, by simpa using hvac⟩, h1⟩, h2⟩, h3⟩, h5⟩

theorem strict_subset_relaxed_witness :
    0 ∈ shorten_filtering_condition_fte_idx [planRowAlice] (Val.nat 1001) ∧
    0 ∈ shorten_filtering_condition_ms_idx [msPlainRow] (Val.nat 6) :=
  ⟨strict_subset_relaxed.1 [planRowAlice] (Val.nat 1001) 0 (by decide),
   strict_subset_relaxed.2 [msPlainRow] (Val.nat 6) 0 (by decide) (by decide) (by decide)⟩

theorem getD_map {f : α → β} {l : List α} {i : Nat} (h : i < l.length) (d : β) (d2 : α) :
    (l.map f).getD i d = f (l.getD i d2) := by
  rw [List.getD_eq_getElem _ _ (by simpa using h), List.getD_eq_getElem _ _ h,
    List.getElem_map]

/-- C4 counterexample: a group whose only row carries the parameterised
label `'Conversion from Fixed Term Contract to Permanent'` is *not*
exempted (`isin` matches the `skip_statuses` literals exactly, and
`'Conversion'` is not this string), and the roster-unchanged sub-check
marks it `Fulfilled = 'Yes'`. -/
theorem conversion_label_not_exempt :
    planRowConvLabel.roleStatus = Val.str ("Conversion from Fixed Term Contract to Permanent") ∧
    roleStatusIsin planRowConvLabel.roleStatus skip_statuses_fte = false ∧
    (c4Result.getD 0 emptyEntryFTE).fulfilled = Val.str ("Yes") ∧
    (c4Result.getD 0 emptyEntryFTE).roleStatus
      = Val.str ("Conversion from Fixed Term Contract to Permanent") := by decide

/-- C4 (amended): the Fulfilled exemption applies to groups containing a
row whose Role Status is *exactly* one of the six `skip_statuses` literals
(`'New Hire'`, `'Transfer In'`, `'Conversion'`, `'Internal Mobility'`,
`'Location Change'`, `'Missing from Op FTE'`/`'MS'`): no row of such a
group is marked `Fulfilled = 'Yes'`, in either variant.  Parameterised
conversion labels are not covered (see the counterexample). -/
theorem fulfilled_exact_status_exemption :
    (∀ (current next : List StaticRow) (op : List OpRow) (i j : Nat)
       (h : i < op.length) (hj : j < op.length),
       (op.get ⟨j, hj⟩).employeeId = (op.get ⟨i, h⟩).employeeId →
       roleStatusIsin (op.get ⟨j, hj⟩).roleStatus skip_statuses_fte = true →
       ((check_and_mark_fulfilled_fte current next op).getD i emptyEntryFTE).fulfilled
         ≠ Val.str ("Yes")) ∧
    (∀ (current next : List StaticRow) (op : List MsRow) (i j : Nat)
       (h : i < op.length) (hj : j < op.length),
       (op.get ⟨j, hj⟩).employeeId = (op.get ⟨i, h⟩).employeeId →
       roleStatusIsin (op.get ⟨j, hj⟩).roleStatus skip_statuses_ms = true →
       ((check_and_mark_fulfilled_ms current next op).getD i emptyMsRow).fulfilled
         ≠ Val.str ("Yes")) := by
  constructor
  · intro current next op i j h hj heq hisin
    unfold check_and_mark_fulfilled_fte
    rw [getD_map (by simpa using h) emptyEntryFTE emptyEntryFTE,
      getD_map h emptyEntryFTE emptyEntryFTE]
    have hgetD : op.getD i emptyEntryFTE = op.get ⟨i, h⟩ := by
      rw [List.getD_eq_getElem _ _ h]; rfl
    rw [hgetD]
    have hany : ((op.map (fun r =>
        { r with startDate := pd_to_datetime r.startDate,
                 endDate := pd_to_datetime r.endDate,
                 fulfilled := Val.str ("") })).filter
          (fun r => decide (r.employeeId = (op.get ⟨i, h⟩).employeeId))).any
        (fun r => roleStatusIsin r.roleStatus skip_statuses_fte) = true := by
      apply List.any_eq_true.mpr
      refine ⟨_, List.mem_filter.mpr ⟨List.mem_map_of_mem _ (List.get_mem op j hj), ?_⟩, ?_⟩
      · simpa using heq
      · exact hisin
    have hverd : fulfilledVerdictFTE current next (op.map (fun r =>
        { r with startDate := pd_to_datetime r.startDate,
                 endDate := pd_to_datetime r.endDate,
                 fulfilled := Val.str ("") })) (op.get ⟨i, h⟩).employeeId = false := by
      simp only [fulfilledVerdictFTE]
      rw [if_pos hany]
    simp only [List.get_eq_getElem] at hverd
    simp [hverd]
  · intro current next op i j h hj heq hisin
    unfold check_and_mark_fulfilled_ms
    rw [getD_map (by simpa using h) emptyMsRow emptyMsRow,
      getD_map h emptyMsRow emptyMsRow]
    have hgetD : op.getD i emptyMsRow = op.get ⟨i, h⟩ := by
      rw [List.getD_eq_getElem _ _ h]; rfl
    rw [hgetD]
    have hany : ((op.map (fun r =>
        { r with startDate := pd_to_datetime r.startDate,
                 endDate := pd_to_datetime r.endDate,
                 fulfilled := Val.str ("") })).filter
          (fun r => decide (r.employeeId = (op.get ⟨i, h⟩).employeeId))).any
        (fun r => roleStatusIsin r.roleStatus skip_statuses_ms) = true := by
      apply List.any_eq_true.mpr
      refine ⟨_, List.mem_filter.mpr ⟨List.mem_map_of_mem _ (List.get_mem op j hj), ?_⟩, ?_⟩
      · simpa using heq
      · exact hisin
    have hverd : fulfilledVerdictMS current next (op.map (fun r =>
        { r with startDate := pd_to_datetime r.startDate,
                 endDate := pd_to_datetime r.endDate,
                 fulfilled := Val.str ("") })) (op.get ⟨i, h⟩).employeeId = false := by
      simp only [fulfilledVerdictMS]
      rw [if_pos hany]
    simp only [List.get_eq_getElem] at hverd
    simp [hverd]

theorem fulfilled_exact_status_exemption_witness :
    ((check_and_mark_fulfilled_fte [] [] [planRowNewHire]).getD 0 emptyEntryFTE).fulfilled
      ≠ Val.str ("Yes") ∧
    ((check_and_mark_fulfilled_ms [] []
        [{ msPlainRow with roleStatus := Val.str ("New Hire") }]).getD 0 emptyMsRow).fulfilled
      ≠ Val.str ("Yes") :=
  ⟨fulfilled_exact_status_exemption.1 [] [] [planRowNewHire] 0 0 (by decide) (by decide)
      rfl (by decide),
   fulfilled_exact_status_exemption.2 [] []
      [{ msPlainRow with roleStatus := Val.str ("New Hire") }] 0 0 (by decide) (by decide)
      rfl (by decide)⟩

/-- C3 counterexample: re-running the CWR-to-FTE conversion detector
against a plan that already contains the matching row (same Employee ID,
next Resource Type, End Date = financial-year-end) inserts a duplicate
when that row is invisible to the Strict matcher (here: frozen by
`Fulfilled = 'Yes'`): the no-match branch appends without consulting the
existence check. -/
theorem cwr_to_fte_duplicate_insertion :
    (cwrToFteExisting [planRowConverted] (Val.nat 1001) (Val.str ("Permanent")) ("Sep-24")).isEmpty
      = false ∧
    c3Result.length = 2 ∧
    (c3Result.getD 1 emptyEntryFTE).employeeId = Val.nat 1001 ∧
    (c3Result.getD 1 emptyEntryFTE).resourceType = Val.str ("Permanent") ∧
    (c3Result.getD 1 emptyEntryFTE).endDate = Val.str ("Sep-24") := by decide

/-- C3 (amended): when every candidate already has a matching
(EmployeeID, discriminator, End Date = financial-year-end) row, a re-run
of the Grade Change or Internal Mobility detector returns the plan table
unchanged; the CWR-to-FTE conversion detector returns it unchanged only
when every candidate also has at least one Strict-matched row — its
no-match branch appends without the existence check (see the
counterexample). -/
theorem rerun_existence_guard :
    (∀ (current next : List StaticRow) (op : List OpRow) (fd : String × String) (today : SDate),
      (∀ p ∈ grade_changes_of current next,
        (gradeChangeExisting op p.1.employeeId p.2.jobGrade (fmtMonYY (get_eofy today))).isEmpty
          = false) →
      identify_grade_changes_fte current next op fd today = op) ∧
    (∀ (current next : List StaticRow) (op : List OpRow) (fd : String × String) (today : SDate),
      (∀ p ∈ internal_mobility_of current next,
        (mobilityExisting op p.1.employeeId p.2.techArea (fmtMonYY (get_eofy today))).isEmpty
          = false) →
      identify_internal_mobility_fte current next op fd today = op) ∧
    (∀ (current next : List StaticRow) (op : List OpRow) (fd : String × String) (today : SDate),
      (∀ p ∈ conversions_cwr_to_fte_of current next,
        (employee_filtering_condition_fte_idx op p.1.employeeId).isEmpty = false) →
      identify_conversions_cwr_to_fte current next op fd today = op) := by
  refine ⟨?_, ?_, ?_⟩
  · intro current next op fd today hguard
    unfold identify_grade_changes_fte
    cases h1 : parseMonYY fd.1 with
    | none => rfl
    | some ed =>
      cases h2 : parseMonYY fd.2 with
      | none => rfl
      | some sd =>
        have hfold : (grade_changes_of current next).foldl
            (identify_grade_changes_fte_step (fmtMonYY (get_eofy today)) (fmtMonYY ed)
              (fmtMonYY sd)) (op, []) = (op, ([] : List OpRow)) := by
          refine foldl_inv (fun st => st = (op, ([] : List OpRow))) _ _ rfl ?_
          intro b p hp hb
          subst hb
          unfold identify_grade_changes_fte_step
          by_cases hempty : (employee_filtering_condition_fte_idx op p.1.employeeId).isEmpty = true
          · rw [if_pos hempty]
          · rw [if_neg hempty]
            refine foldl_inv (fun st2 => st2 = ((op, ([] : List OpRow)) : List OpRow × List OpRow)) _ _ rfl ?_
            intro b2 i _ hb2
            subst hb2
            unfold identify_grade_changes_fte_inner
            rw [if_neg (by simp [hguard p hp])]
        simp only [hfold]
        simp [add_new_entries_fte]
  · intro current next op fd today hguard
    unfold identify_internal_mobility_fte
    cases h1 : parseMonYY fd.1 with
    | none => rfl
    | some ed =>
      cases h2 : parseMonYY fd.2 with
      | none => rfl
      | some sd =>
        have hfold : (internal_mobility_of current next).foldl
            (identify_internal_mobility_fte_step (fmtMonYY (get_eofy today)) (fmtMonYY ed)
              (fmtMonYY sd)) (op, []) = (op, ([] : List OpRow)) := by
          refine foldl_inv (fun st => st = (op, ([] : List OpRow))) _ _ rfl ?_
          intro b p hp hb
          subst hb
          unfold identify_internal_mobility_fte_step
          by_cases hempty : (employee_filtering_condition_fte_idx op p.1.employeeId).isEmpty = true
          · rw [if_pos hempty]
          · rw [if_neg hempty, if_pos (by simp [hguard p hp])]
        simp only [hfold]
        simp [add_new_entries_fte]
  · intro current next op fd today hguard
    unfold identify_conversions_cwr_to_fte
    cases h2 : parseMonYY fd.2 with
    | none => rfl
    | some sd =>
      have hfold : (conversions_cwr_to_fte_of current next).foldl
          (identify_conversions_cwr_to_fte_step (fmtMonYY sd) (fmtMonYY (get_eofy today)))
            (op, []) = (op, ([] : List OpRow)) := by
        refine foldl_inv (fun st => st = (op, ([] : List OpRow))) _ _ rfl ?_
        intro b p hp hb
        subst hb
        unfold identify_conversions_cwr_to_fte_step
        rw [if_neg (by simp [hguard p hp])]
      simp only [hfold]
      simp [add_new_entries_fte]

theorem rerun_existence_guard_witness :
    identify_grade_changes_fte [empAliceP4] [empAliceP5]
        [{ planRowAlice with jobGrade := Val.str ("P5") }] (("May-24"), ("Jun-24")) ⟨2024, 6, 15⟩
      = [{ planRowAlice with jobGrade := Val.str ("P5") }] ∧
    identify_internal_mobility_fte [empAliceP4]
        [{ empAliceP4 with techArea := Val.str ("Security_Infra") }]
        [{ planRowAlice with techArea := Val.str ("Security_Infra") }]
        (("May-24"), ("Jun-24")) ⟨2024, 6, 15⟩
      = [{ planRowAlice with techArea := Val.str ("Security_Infra") }] ∧
    identify_conversions_cwr_to_fte [empAliceCwr] [empAliceP4] [planRowAlice]
        (("May-24"), ("Jun-24")) ⟨2024, 6, 15⟩ = [planRowAlice] :=
  ⟨rerun_existence_guard.1 [empAliceP4] [empAliceP5] _ _ _ (by decide),
   rerun_existence_guard.2.1 [empAliceP4] [{ empAliceP4 with techArea := Val.str ("Security_Infra") }]
     _ _ _ (by decide),
   rerun_existence_guard.2.2 [empAliceCwr] [empAliceP4] _ _ _ (by decide)⟩

theorem contains_false_not_mem {l : List Nat} {i : Nat} (h : l.contains i = false) : i ∉ l := by
  intro hmem
  have h2 : l.contains i = true := by simpa using hmem
  rw [h] at h2
  cases h2

theorem exits_step_keeps (fd : SDate) (eid : Val) (acc : List OpRow) (e2 : StaticRow)
    (hH : ∀ (k : Nat) (hk : k < acc.length),
      shorten_filtering_condition_fte eid (acc.get ⟨k, hk⟩) = true →
      (acc.get ⟨k, hk⟩).endDate = Val.date fd ∧
      (acc.get ⟨k, hk⟩).roleStatus = Val.str ("Exit") ∧
      (acc.get ⟨k, hk⟩).modified = Val.bool true) :
    ∀ (k : Nat) (hk : k < (identify_exits_fte_step fd acc e2).length),
      shorten_filtering_condition_fte eid ((identify_exits_fte_step fd acc e2).get ⟨k, hk⟩) = true →
      ((identify_exits_fte_step fd acc e2).get ⟨k, hk⟩).endDate = Val.date fd ∧
      ((identify_exits_fte_step fd acc e2).get ⟨k, hk⟩).roleStatus = Val.str ("Exit") ∧
      ((identify_exits_fte_step fd acc e2).get ⟨k, hk⟩).modified = Val.bool true := by
  intro k hk hcond
  unfold identify_exits_fte_step at hk hcond ⊢
  have hk0 : k < acc.length := by
    have hktmp := hk
    rw [length_updRows] at hktmp
    exact hktmp
  have hget := get_updRows hk0 hk
  rw [hget] at hcond ⊢
  by_cases hc : (shorten_filtering_condition_fte_idx acc e2.employeeId).contains k = true
  · rw [if_pos hc]
    exact ⟨rfl, rfl, rfl⟩
  · rw [if_neg hc] at hcond ⊢
    exact hH k hk0 hcond

theorem exits_step_self (fd : SDate) (acc : List OpRow) (e : StaticRow) :
    ∀ (k : Nat) (hk : k < (identify_exits_fte_step fd acc e).length),
      shorten_filtering_condition_fte e.employeeId
          ((identify_exits_fte_step fd acc e).get ⟨k, hk⟩) = true →
      ((identify_exits_fte_step fd acc e).get ⟨k, hk⟩).endDate = Val.date fd ∧
      ((identify_exits_fte_step fd acc e).get ⟨k, hk⟩).roleStatus = Val.str ("Exit") ∧
      ((identify_exits_fte_step fd acc e).get ⟨k, hk⟩).modified = Val.bool true := by
  intro k hk hcond
  unfold identify_exits_fte_step at hk hcond ⊢
  have hk0 : k < acc.length := by
    have hktmp := hk
    rw [length_updRows] at hktmp
    exact hktmp
  have hget := get_updRows hk0 hk
  rw [hget] at hcond ⊢
  by_cases hc : (shorten_filtering_condition_fte_idx acc e.employeeId).contains k = true
  · rw [if_pos hc]
    exact ⟨rfl, rfl, rfl⟩
  · rw [if_neg hc] at hcond ⊢
    exfalso
    have hnotmem : k ∉ shorten_filtering_condition_fte_idx acc e.employeeId :=
      contains_false_not_mem (by simpa using hc)
    exact hnotmem (mem_filterIdx.mpr ⟨hk0, hcond⟩)

theorem exits_fold_spec (fd : SDate) :
    ∀ (l : List StaticRow) (acc : List OpRow) (e : StaticRow), e ∈ l →
      ∀ (i : Nat) (hi : i < (l.foldl (identify_exits_fte_step fd) acc).length),
        shorten_filtering_condition_fte e.employeeId
            ((l.foldl (identify_exits_fte_step fd) acc).get ⟨i, hi⟩) = true →
        ((l.foldl (identify_exits_fte_step fd) acc).get ⟨i, hi⟩).endDate = Val.date fd ∧
        ((l.foldl (identify_exits_fte_step fd) acc).get ⟨i, hi⟩).roleStatus = Val.str ("Exit") ∧
        ((l.foldl (identify_exits_fte_step fd) acc).get ⟨i, hi⟩).modified = Val.bool true := by
  intro l
  induction l with
  | nil => intro acc e hmem; cases hmem
  | cons e0 rest ih =>
    intro acc e hmem i hi hcond
    rcases List.mem_cons.mp hmem with heq | hrest
    · subst heq
      have hfinal := foldl_inv
        (fun acc2 : List OpRow => ∀ (k : Nat) (hk : k < acc2.length),
          shorten_filtering_condition_fte e.employeeId (acc2.get ⟨k, hk⟩) = true →
          (acc2.get ⟨k, hk⟩).endDate = Val.date fd ∧
          (acc2.get ⟨k, hk⟩).roleStatus = Val.str ("Exit") ∧
          (acc2.get ⟨k, hk⟩).modified = Val.bool true)
        rest (identify_exits_fte_step fd acc e)
        (exits_step_self fd acc e)
        (fun b a _ hb => exits_step_keeps fd e.employeeId b a hb)
      exact hfinal i hi hcond
    · exact ih (identify_exits_fte_step fd acc e0) e hrest i hi hcond

/-- C1 counterexample: the Exit detector writes the parsed `datetime.date`
object into End Date — the first day of the month named by the period-end
label — not the `'%b-%y'` label string itself (which every other
closing-out detector writes via `strftime`). -/
theorem exit_end_date_is_date_not_label :
    empAliceP4 ∈ exitsOf [empAliceP4] [] ∧
    shorten_filtering_condition_fte (Val.nat 1001) planRowAlice = true ∧
    (c1Result.getD 0 emptyEntryFTE).roleStatus = Val.str ("Exit") ∧
    (c1Result.getD 0 emptyEntryFTE).endDate = Val.date ⟨2024, 5, 1⟩ ∧
    (c1Result.getD 0 emptyEntryFTE).endDate ≠ Val.str ("May-24") := by decide

/-- C1 (amended): for every employee in the current Security+FTE filtered
set whose Employee ID is absent from the next snapshot, after the Exit
detector runs every plan row matched by the Relaxed or the Strict policy
for that employee has Role Status `'Exit'`, Modified, and End Date equal
to the *date parsed from* the period-end label (a datetime value — the
first day of that month — not the label string; see the counterexample). -/
theorem exit_rows_closed_out (current next : List StaticRow) (op : List OpRow)
    (lbl ls : String) (fd : SDate) (r : StaticRow)
    (hlbl : ¬ lbl = "")
    (hparse : parseMonYY lbl = some fd)
    (hr : r ∈ exitsOf current next)
    (i : Nat)
    (hi : i < (identify_exits_fte current next op (lbl, ls)).length)
    (hmatch : shorten_filtering_condition_fte r.employeeId
        ((identify_exits_fte current next op (lbl, ls)).getD i emptyEntryFTE) = true ∨
      employee_filtering_condition_fte r.employeeId
        ((identify_exits_fte current next op (lbl, ls)).getD i emptyEntryFTE) = true) :
    ((identify_exits_fte current next op (lbl, ls)).getD i emptyEntryFTE).endDate = Val.date fd ∧
    ((identify_exits_fte current next op (lbl, ls)).getD i emptyEntryFTE).roleStatus
      = Val.str ("Exit") ∧
    ((identify_exits_fte current next op (lbl, ls)).getD i emptyEntryFTE).modified
      = Val.bool true := by
  have heq : identify_exits_fte current next op (lbl, ls) =
      (exitsOf current next).foldl (identify_exits_fte_step fd) op := by
    show (if lbl = "" then op else
      match parseMonYY lbl with
      | none => op
      | some fd2 => (exitsOf current next).foldl (identify_exits_fte_step fd2) op) = _
    rw [if_neg hlbl, hparse]
  rw [heq] at hi hmatch ⊢
  have hm : shorten_filtering_condition_fte r.employeeId
      (((exitsOf current next).foldl (identify_exits_fte_step fd) op).getD i emptyEntryFTE)
        = true :=
    Or.elim hmatch id (fun hs => strict_imp_relaxed_fte_cond hs)
  have hgd : ((exitsOf current next).foldl (identify_exits_fte_step fd) op).getD i emptyEntryFTE
      = ((exitsOf current next).foldl (identify_exits_fte_step fd) op).get ⟨i, hi⟩ := by
    rw [List.getD_eq_getElem _ _ hi]
    rfl
  rw [hgd] at hm ⊢
  exact exits_fold_spec fd (exitsOf current next) op r hr i hi hm

theorem exit_rows_closed_out_witness :
    ((identify_exits_fte [empAliceP4] [] [planRowAlice] (("May-24"), ("Jun-24"))).getD 0
        emptyEntryFTE).endDate = Val.date ⟨2024, 5, 1⟩ ∧
    ((identify_exits_fte [empAliceP4] [] [planRowAlice] (("May-24"), ("Jun-24"))).getD 0
        emptyEntryFTE).roleStatus = Val.str ("Exit") :=
  have h := exit_rows_closed_out [empAliceP4] [] [planRowAlice] ("May-24") ("Jun-24")
    ⟨2024, 5, 1⟩ empAliceP4 (by decide) (by decide) (by decide) 0 (by decide)
    (Or.inl (by decide))
  ⟨h.1, h.2.1⟩

theorem take_map_of_map_eq {l out : List α} (g : α → β)
    (hlen : out.length = l.length) (hmap : out.map g = l.map g) :
    (out.take l.length).map g = l.map g := by
  rw [← hlen, List.take_of_length_le (le_refl _), hmap]

theorem take_map_self {op : List α} (g : α → β) :
    (op.take op.length).map g = op.map g := by
  rw [List.take_of_length_le (le_refl _)]

theorem take_map_of_prefix {acc es op : List α} (g : α → β)
    (hmap : acc.map g = op.map g) :
    ((acc ++ es).take op.length).map g = op.map g := by
  have hlen : acc.length = op.length := by
    have := congrArg List.length hmap
    simpa using this
  rw [← hlen, List.take_left, hmap]

theorem take_map_add_new_entries_of {op acc es : List OpRow}
    (hmap : acc.map (fun r => r.employeeId) = op.map (fun r => r.employeeId)) :
    ((add_new_entries_fte acc es).take op.length).map (fun r => r.employeeId)
      = op.map (fun r => r.employeeId) := by
  unfold add_new_entries_fte
  by_cases h : es.isEmpty = true
  · rw [if_pos h]
    have hlen : acc.length = op.length := by
      have := congrArg List.length hmap
      simpa using this
    rw [← hlen, List.take_of_length_le (le_refl _), hmap]
  · rw [if_neg h]
    exact take_map_of_prefix _ hmap

theorem map_eid_updRows_any {f : α → α} {g : α → β} {idxs : List Nat} {l : List α}
    (hf : ∀ r, g (f r) = g r) :
    (updRows f idxs l).map g = l.map g := by
  apply map_updRowsAux_of
  intro j h _
  exact hf _

theorem sanity_checks_fte_row_keeps_id (current next : List StaticRow) (r : OpRow) :
    (sanity_checks_fte_row current next r).employeeId = r.employeeId := by
  unfold sanity_checks_fte_row
  split
  · rfl
  split
  · rfl
  split
  · rfl
  next nrow hfind =>
    split
    next h3 =>
      cases hfind2 : current.find? (fun c => valEqv c.employeeId r.employeeId) with
      | none =>
        simp only [hfind2]
      | some c =>
        simp only [hfind2]
        by_cases h4 : (decide (c.domain = Val.str ("Security"))) = true
        · rw [if_pos h4]
          show sanityUpd r.employeeId c.employeeId = r.employeeId
          have h5 := List.find?_some hfind2
          have h6 : valEqv c.employeeId r.employeeId = true := by simpa using h5
          rw [(valEqv_eq_true.mp h6).1]
          simp [sanityUpd]
        · rw [if_neg h4]
    next h3 =>
      show sanityUpd r.employeeId nrow.employeeId = r.employeeId
      have hnr : nrow.employeeId = r.employeeId := by
        simpa [keyEq] using List.find?_some hfind
      rw [hnr]
      simp [sanityUpd]

/-- C9: no modelled stage ever deletes a plan row.  For every lifecycle
pass, the sanity pass, the append helper, and each of the eleven FTE
detectors, the first `op.length` rows of the output are the input rows in
order (possibly mutated in place — witnessed by the unchanged Employee ID
column), and anything beyond them is appended: taking the input-length
prefix of the output reproduces the input's Employee ID column. -/
theorem no_stage_deletes_rows :
    (∀ (op es : List OpRow),
      ((add_new_entries_fte op es).take op.length).map (fun r => r.employeeId)
        = op.map (fun r => r.employeeId)) ∧
    (∀ (current next : List StaticRow) (op : List OpRow),
      ((identify_missing_employees_fte current next op).take op.length).map (fun r => r.employeeId)
        = op.map (fun r => r.employeeId)) ∧
    (∀ (current next : List StaticRow) (op : List OpRow),
      ((check_and_mark_fulfilled_fte current next op).take op.length).map (fun r => r.employeeId)
        = op.map (fun r => r.employeeId)) ∧
    (∀ (current next : List StaticRow) (op : List MsRow),
      ((check_and_mark_fulfilled_ms current next op).take op.length).map (fun r => r.employeeId)
        = op.map (fun r => r.employeeId)) ∧
    (∀ (d : SDate) (op : List OpRow),
      ((initiate_skip_column_fte d op).take op.length).map (fun r => r.employeeId)
        = op.map (fun r => r.employeeId)) ∧
    (∀ (d : SDate) (op : List MsRow),
      ((initiate_skip_column_ms d op).take op.length).map (fun r => r.employeeId)
        = op.map (fun r => r.employeeId)) ∧
    (∀ (current next : List StaticRow) (op : List OpRow),
      ((sanity_checks_fte current next op).take op.length).map (fun r => r.employeeId)
        = op.map (fun r => r.employeeId)) ∧
    (∀ (op : List OpRow),
      ((merge_data_fte op).take op.length).map (fun r => r.employeeId)
        = op.map (fun r => r.employeeId)) ∧
    (∀ (current next : List StaticRow) (op : List OpRow) (fd : String × String),
      ((identify_exits_fte current next op fd).take op.length).map (fun r => r.employeeId)
        = op.map (fun r => r.employeeId)) ∧
    (∀ (current next : List StaticRow) (op : List OpRow) (fd : String × String) (today : SDate),
      ((identify_new_joiners_fte current next op fd today).take op.length).map (fun r => r.employeeId)
        = op.map (fun r => r.employeeId)) ∧
    (∀ (current next : List StaticRow) (op : List OpRow) (fd : String × String) (today : SDate),
      ((identify_transfers_in_fte current next op fd today).take op.length).map (fun r => r.employeeId)
        = op.map (fun r => r.employeeId)) ∧
    (∀ (current next : List StaticRow) (op : List OpRow) (fd : String × String),
      ((identify_transfers_out_fte current next op fd).take op.length).map (fun r => r.employeeId)
        = op.map (fun r => r.employeeId)) ∧
    (∀ (current next : List StaticRow) (op : List OpRow) (fd : String × String) (today : SDate),
      ((identify_grade_changes_fte current next op fd today).take op.length).map (fun r => r.employeeId)
        = op.map (fun r => r.employeeId)) ∧
    (∀ (current next : List StaticRow) (op : List OpRow) (fd : String × String) (today : SDate),
      ((identify_internal_mobility_fte current next op fd today).take op.length).map (fun r => r.employeeId)
        = op.map (fun r => r.employeeId)) ∧
    (∀ (current next : List StaticRow) (op : List OpRow) (fd : String × String) (today : SDate),
      ((indetify_conversions_within_fte current next op fd today).take op.length).map (fun r => r.employeeId)
        = op.map (fun r => r.employeeId)) ∧
    (∀ (current next : List StaticRow) (op : List OpRow) (fd : String × String) (today : SDate),
      ((identify_conversions_cwr_to_fte current next op fd today).take op.length).map (fun r => r.employeeId)
        = op.map (fun r => r.employeeId)) ∧
    (∀ (current next : List StaticRow) (op : List OpRow) (fd : String × String),
      ((identify_conversions_fte_to_cwr current next op fd).take op.length).map (fun r => r.employeeId)
        = op.map (fun r => r.employeeId)) ∧
    (∀ (current next : List StaticRow) (op : List OpRow),
      ((identify_line_manager_changes_fte current next op).take op.length).map (fun r => r.employeeId)
        = op.map (fun r => r.employeeId)) ∧
    (∀ (current next : List StaticRow) (op : List OpRow) (fd : String × String) (today : SDate),
      ((identify_location_changes_fte current next op fd today).take op.length).map (fun r => r.employeeId)
        = op.map (fun r => r.employeeId)) := by
  refine ⟨?_, ?_, ?_, ?_, ?_, ?_, ?_, ?_, ?_, ?_, ?_, ?_, ?_, ?_, ?_, ?_, ?_, ?_, ?_⟩
  · intro op es
    exact take_map_add_new_entries_of rfl
  · intro current next op
    unfold identify_missing_employees_fte
    exact take_map_add_new_entries_of rfl
  · intro current next op
    refine take_map_of_map_eq _ (by simp [check_and_mark_fulfilled_fte]) ?_
    unfold check_and_mark_fulfilled_fte
    rw [List.map_map, List.map_map]
    apply List.map_congr_left
    intro r _
    simp only [Function.comp]
    split <;> rfl
  · intro current next op
    refine take_map_of_map_eq _ (by simp [check_and_mark_fulfilled_ms]) ?_
    unfold check_and_mark_fulfilled_ms
    rw [List.map_map, List.map_map]
    apply List.map_congr_left
    intro r _
    simp only [Function.comp]
    split <;> rfl
  · intro d op
    refine take_map_of_map_eq _ (by simp [initiate_skip_column_fte]) ?_
    unfold initiate_skip_column_fte
    rw [List.map_map]
    apply List.map_congr_left
    intro r _
    rfl
  · intro d op
    refine take_map_of_map_eq _ (by simp [initiate_skip_column_ms]) ?_
    unfold initiate_skip_column_ms
    rw [List.map_map]
    apply List.map_congr_left
    intro r _
    rfl
  · intro current next op
    refine take_map_of_map_eq _ (by simp [sanity_checks_fte]) ?_
    unfold sanity_checks_fte
    rw [List.map_map]
    apply List.map_congr_left
    intro r _
    simp only [Function.comp]
    exact sanity_checks_fte_row_keeps_id current next r
  · intro op
    refine take_map_of_map_eq _ (by simp [merge_data_fte]) ?_
    unfold merge_data_fte
    rw [List.map_map]
    apply List.map_congr_left
    intro r _
    rfl
  · intro current next op fd
    unfold identify_exits_fte
    split
    all_goals try exact take_map_self _
    split
    all_goals try exact take_map_self _
    rename_i fd2 heq2
    have hmap : ((exitsOf current next).foldl (identify_exits_fte_step fd2) op).map
        (fun r => r.employeeId) = op.map (fun r => r.employeeId) := by
      refine foldl_inv (fun acc : List OpRow =>
        acc.map (fun r => r.employeeId) = op.map (fun r => r.employeeId)) _ _ rfl ?_
      intro b a _ hb
      unfold identify_exits_fte_step
      refine Eq.trans (map_eid_updRows_any ?_) hb
      intro r
      rfl
    refine take_map_of_map_eq _ ?_ hmap
    have := congrArg List.length hmap
    simpa using this
  · intro current next op fd today
    unfold identify_new_joiners_fte
    split
    all_goals try exact take_map_self _
    refine take_map_add_new_entries_of ?_
    refine foldl_inv (fun st : List OpRow × List OpRow =>
      st.1.map (fun r => r.employeeId) = op.map (fun r => r.employeeId)) _ _ rfl ?_
    intro b a _ hb
    simp only [identify_new_joiners_fte_step]
    split
    · exact hb
    · refine Eq.trans (map_eid_updRows_any ?_) hb
      intro r
      rfl
  · intro current next op fd today
    unfold identify_transfers_in_fte
    split
    all_goals try exact take_map_self _
    refine take_map_add_new_entries_of ?_
    refine foldl_inv (fun st : List OpRow × List OpRow =>
      st.1.map (fun r => r.employeeId) = op.map (fun r => r.employeeId)) _ _ rfl ?_
    intro b p _ hb
    simp only [identify_transfers_in_fte_step]
    split
    · exact hb
    · refine foldl_inv (fun acc : List OpRow =>
        acc.map (fun r => r.employeeId) = op.map (fun r => r.employeeId)) _ _ hb ?_
      intro b2 i _ hb2
      simp only [identify_transfers_in_fte_inner]
      split
      · refine Eq.trans (map_eid_updRows_any ?_) hb2
        intro r
        rfl
      · exact hb2
  · intro current next op fd
    unfold identify_transfers_out_fte
    split
    all_goals try exact take_map_self _
    rename_i ed heq2
    have hmap : ((transfers_out_of current next).foldl
        (identify_transfers_out_fte_step (fmtMonYY ed)) op).map (fun r => r.employeeId)
          = op.map (fun r => r.employeeId) := by
      refine foldl_inv (fun acc : List OpRow =>
        acc.map (fun r => r.employeeId) = op.map (fun r => r.employeeId)) _ _ rfl ?_
      intro b p _ hb
      unfold identify_transfers_out_fte_step
      refine Eq.trans (map_eid_updRows_any ?_) hb
      intro r
      rfl
    refine take_map_of_map_eq _ ?_ hmap
    have := congrArg List.length hmap
    simpa using this
  · intro current next op fd today
    unfold identify_grade_changes_fte
    split
    all_goals try exact take_map_self _
    refine take_map_add_new_entries_of ?_
    refine foldl_inv (fun st : List OpRow × List OpRow =>
      st.1.map (fun r => r.employeeId) = op.map (fun r => r.employeeId)) _ _ rfl ?_
    intro b p _ hb
    simp only [identify_grade_changes_fte_step]
    split
    · exact hb
    · refine foldl_inv (fun st2 : List OpRow × List OpRow =>
        st2.1.map (fun r => r.employeeId) = op.map (fun r => r.employeeId)) _ _ hb ?_
      intro b2 i _ hb2
      simp only [identify_grade_changes_fte_inner]
      split
      · refine Eq.trans (map_eid_updRows_any ?_) hb2
        intro r
        rfl
      · exact hb2
  · intro current next op fd today
    unfold identify_internal_mobility_fte
    split
    all_goals try exact take_map_self _
    refine take_map_add_new_entries_of ?_
    refine foldl_inv (fun st : List OpRow × List OpRow =>
      st.1.map (fun r => r.employeeId) = op.map (fun r => r.employeeId)) _ _ rfl ?_
    intro b p _ hb
    simp only [identify_internal_mobility_fte_step]
    split
    · exact hb
    split
    · exact hb
    · refine Eq.trans (map_eid_updRows_any ?_) hb
      intro r
      rfl
  · intro current next op fd today
    unfold indetify_conversions_within_fte
    split
    all_goals try exact take_map_self _
    refine take_map_add_new_entries_of ?_
    refine foldl_inv (fun st : List OpRow × List OpRow =>
      st.1.map (fun r => r.employeeId) = op.map (fun r => r.employeeId)) _ _ rfl ?_
    intro b p _ hb
    simp only [indetify_conversions_within_fte_step]
    split
    · exact hb
    · refine foldl_inv (fun st2 : List OpRow × List OpRow =>
        st2.1.map (fun r => r.employeeId) = op.map (fun r => r.employeeId)) _ _ hb ?_
      intro b2 i _ hb2
      simp only [indetify_conversions_within_fte_inner]
      refine Eq.trans (map_eid_updRows_any ?_) hb2
      intro r
      rfl
  · intro current next op fd today
    unfold identify_conversions_cwr_to_fte
    split
    all_goals try exact take_map_self _
    refine take_map_add_new_entries_of ?_
    refine foldl_inv (fun st : List OpRow × List OpRow =>
      st.1.map (fun r => r.employeeId) = op.map (fun r => r.employeeId)) _ _ rfl ?_
    intro b p _ hb
    simp only [identify_conversions_cwr_to_fte_step]
    split
    · exact hb
    · exact hb
  · intro current next op fd
    unfold identify_conversions_fte_to_cwr
    split
    all_goals try exact take_map_self _
    rename_i ed heq2
    have hmap : ((conversions_fte_to_cwr_of current next).foldl
        (identify_conversions_fte_to_cwr_step (fmtMonYY ed)) op).map (fun r => r.employeeId)
          = op.map (fun r => r.employeeId) := by
      refine foldl_inv (fun acc : List OpRow =>
        acc.map (fun r => r.employeeId) = op.map (fun r => r.employeeId)) _ _ rfl ?_
      intro b p _ hb
      unfold identify_conversions_fte_to_cwr_step
      unfold employee_filtering_condition_fte_idx
      refine Eq.trans (map_updRows_filterIdx ?_) hb
      intro r hc
      show p.1.employeeId = r.employeeId
      unfold employee_filtering_condition_fte at hc
      simp only [Bool.and_eq_true] at hc
      exact ((valEqv_eq_true.mp hc.1.1.1.1.1.2).1).symm
    refine take_map_of_map_eq _ ?_ hmap
    have := congrArg List.length hmap
    simpa using this
  · intro current next op
    unfold identify_line_manager_changes_fte
    have hmap : ((line_manager_changes_of current next).foldl
        identify_line_manager_changes_fte_step op).map (fun r => r.employeeId)
          = op.map (fun r => r.employeeId) := by
      refine foldl_inv (fun acc : List OpRow =>
        acc.map (fun r => r.employeeId) = op.map (fun r => r.employeeId)) _ _ rfl ?_
      intro b p _ hb
      unfold identify_line_manager_changes_fte_step
      refine Eq.trans (map_eid_updRows_any ?_) hb
      intro r
      rfl
    refine take_map_of_map_eq _ ?_ hmap
    have := congrArg List.length hmap
    simpa using this
  · intro current next op fd today
    unfold identify_location_changes_fte
    split
    all_goals try exact take_map_self _
    refine take_map_add_new_entries_of ?_
    refine foldl_inv (fun st : List OpRow × List OpRow =>
      st.1.map (fun r => r.employeeId) = op.map (fun r => r.employeeId)) _ _ rfl ?_
    intro b p _ hb
    simp only [identify_location_changes_fte_step]
    refine foldl_inv (fun st2 : List OpRow × List OpRow =>
      st2.1.map (fun r => r.employeeId) = op.map (fun r => r.employeeId)) _ _ hb ?_
    intro b2 i _ hb2
    simp only [identify_location_changes_fte_inner]
    refine Eq.trans (map_eid_updRows_any ?_) hb2
    intro r
    rfl

theorem strict_cond_valEqv {eid : Val} {row : OpRow}
    (h : employee_filtering_condition_fte eid row = true) :
    valEqv row.employeeId eid = true := by
  unfold employee_filtering_condition_fte at h
  simp only [Bool.and_eq_true] at h
  exact h.1.1.1.1.1.2

theorem nomatch_preserved {xid rid : Val} {f : OpRow → OpRow}
    (hf : ∀ row, (f row).employeeId = row.employeeId)
    (hx : keyEq xid rid = false) {acc : List OpRow}
    (hnm : employee_filtering_condition_fte_idx acc rid = []) :
    employee_filtering_condition_fte_idx
      (updRows f (employee_filtering_condition_fte_idx acc xid) acc) rid = [] := by
  unfold employee_filtering_condition_fte_idx at hnm ⊢
  rw [filterIdx_eq_nil] at hnm ⊢
  intro i h
  have h0 : i < acc.length := by
    have htmp := h
    rw [length_updRows] at htmp
    exact htmp
  have hget := get_updRows h0 h
  rw [hget]
  by_cases hc : ((filterIdx (employee_filtering_condition_fte xid) acc).contains i) = true
  · rw [if_pos hc]
    have hmem : i ∈ filterIdx (employee_filtering_condition_fte xid) acc := by simpa using hc
    rcases mem_filterIdx.mp hmem with ⟨h0b, hcondx⟩
    by_contra hcon
    have hcondr : employee_filtering_condition_fte rid (f (acc.get ⟨i, h0⟩)) = true := by
      simpa using hcon
    have hv1 : valEqv (acc.get ⟨i, h0⟩).employeeId xid = true := strict_cond_valEqv hcondx
    have hv2 : valEqv (f (acc.get ⟨i, h0⟩)).employeeId rid = true := strict_cond_valEqv hcondr
    rw [hf] at hv2
    obtain ⟨he1, _⟩ := valEqv_eq_true.mp hv1
    obtain ⟨he2, _⟩ := valEqv_eq_true.mp hv2
    have hxr : xid = rid := he1.symm.trans he2
    have hkey : keyEq xid rid = true := by simp [keyEq, hxr]
    rw [hkey] at hx
    cases hx
  · rw [if_neg hc]
    exact hnm i h0

theorem map_to_hub_FTE_ne_na {v : Val} (h : v ≠ Val.na) : map_to_hub_FTE v ≠ Val.na := by
  unfold map_to_hub_FTE
  split_ifs <;> simp_all

theorem format_domain_ne_na {v : Val} (h : v ≠ Val.na) : format_domain v ≠ Val.na := by
  unfold format_domain
  cases v with
  | na => exact absurd rfl h
  | str s => simp
  | nat n => simp
  | date d => simp
  | bool b => simp

theorem format_tech_area_ne_na {v : Val} (h : v ≠ Val.na) : format_tech_area v ≠ Val.na := by
  unfold format_tech_area
  cases v with
  | na => exact absurd rfl h
  | str s => simp
  | nat n => simp
  | date d => simp
  | bool b => simp

theorem buildEntryFTE_populated (key : Val) (src : StaticRow) (sv ev : Val) (status : String)
    (hkey : key ≠ Val.na) (hsv : sv ≠ Val.na) (hev : ev ≠ Val.na)
    (hrt : src.resourceType ≠ Val.na) (hlan : src.lanid ≠ Val.na)
    (hrty : src.roleType ≠ Val.na) (hjg : src.jobGrade ≠ Val.na)
    (hctry : src.planningUnitCountry ≠ Val.na) (hdom : src.domain ≠ Val.na)
    (hta : src.techArea ≠ Val.na) (hfn : src.fteNum ≠ Val.na) :
    ∀ c ∈ OP_FTE_COLUMNS, c ≠ ("Input Annualised Stretch $ \n(if applicable)") →
      rowCell (buildEntryFTE key src sv ev status) c ≠ Val.na := by
  intro c hc hcne
  simp only [OP_FTE_COLUMNS] at hc
  simp only [List.mem_cons, List.not_mem_nil, or_false] at hc
  rcases hc with rfl | rfl | rfl | rfl | rfl | rfl | rfl | rfl | rfl | rfl | rfl | rfl | rfl |
    rfl | rfl | rfl | rfl | rfl | rfl | rfl | rfl | rfl | rfl | rfl | rfl | rfl | rfl | rfl | rfl
  all_goals first
    | exact absurd rfl hcne
    | (simp [rowCell, buildEntryFTE, emptyEntryFTE] <;>
        first
          | exact hrt | exact hlan | exact hrty | exact hjg | exact hctry
          | exact hkey | exact hsv | exact hev | exact hfn
          | exact map_to_hub_FTE_ne_na hctry
          | exact format_domain_ne_na hdom
          | exact format_tech_area_ne_na hta)

theorem nj_fold_no_match (fday eo : String) (eid : Val) :
    ∀ (l : List StaticRow) (acc es : List OpRow),
      l.filter (fun x => keyEq x.employeeId eid) = [] →
      ∃ acc2 es2,
        l.foldl (identify_new_joiners_fte_step fday eo) (acc, es) = (acc2, es2) ∧
        acc2.length = acc.length ∧
        es2.filter (fun q => keyEq q.employeeId eid)
          = es.filter (fun q => keyEq q.employeeId eid) := by
  intro l
  induction l with
  | nil =>
    intro acc es _
    exact ⟨acc, es, rfl, rfl, rfl⟩
  | cons x rest ih =>
    intro acc es hfil
    have hx : keyEq x.employeeId eid = false := by
      by_contra hcon
      have hxt : keyEq x.employeeId eid = true := by simpa using hcon
      simp [List.filter_cons, hxt] at hfil
    have hrest : rest.filter (fun x => keyEq x.employeeId eid) = [] := by
      simpa [List.filter_cons, hx] using hfil
    rw [List.foldl_cons]
    by_cases hemp : (employee_filtering_condition_fte_idx acc x.employeeId).isEmpty = true
    · have hstep : identify_new_joiners_fte_step fday eo (acc, es) x =
          (acc, es ++ [buildEntryFTE x.employeeId x (Val.str fday) (Val.str eo) ("New Hire")]) := by
        simp only [identify_new_joiners_fte_step]
        rw [if_pos hemp]
      rw [hstep]
      rcases ih acc
          (es ++ [buildEntryFTE x.employeeId x (Val.str fday) (Val.str eo) ("New Hire")])
          hrest with ⟨acc2, es2, heq, hlen, hfil2⟩
      refine ⟨acc2, es2, heq, hlen, ?_⟩
      rw [hfil2, List.filter_append]
      have hone : [buildEntryFTE x.employeeId x (Val.str fday) (Val.str eo) ("New Hire")].filter
          (fun q => keyEq q.employeeId eid) = [] := by
        simp [List.filter_cons, buildEntryFTE, hx]
      rw [hone, List.append_nil]
    · have hstep : identify_new_joiners_fte_step fday eo (acc, es) x =
          (updRows (fun row =>
              { row with roleStatus := Val.str ("New Hire"), modified := Val.bool true })
            (employee_filtering_condition_fte_idx acc x.employeeId) acc, es) := by
        simp only [identify_new_joiners_fte_step]
        rw [if_neg hemp]
      rw [hstep]
      rcases ih _ es hrest with ⟨acc2, es2, heq, hlen, hfil2⟩
      refine ⟨acc2, es2, heq, ?_, hfil2⟩
      rw [hlen, length_updRows]

theorem nj_fold_spec (fday eo : String) (r : StaticRow) :
    ∀ (l : List StaticRow) (acc es : List OpRow),
      l.filter (fun x => keyEq x.employeeId r.employeeId) = [r] →
      employee_filtering_condition_fte_idx acc r.employeeId = [] →
      ∃ acc2 es2,
        l.foldl (identify_new_joiners_fte_step fday eo) (acc, es) = (acc2, es2) ∧
        acc2.length = acc.length ∧
        es2.filter (fun q => keyEq q.employeeId r.employeeId)
          = es.filter (fun q => keyEq q.employeeId r.employeeId)
              ++ [buildEntryFTE r.employeeId r (Val.str fday) (Val.str eo) ("New Hire")] := by
  intro l
  induction l with
  | nil =>
    intro acc es hfil _
    simp at hfil
  | cons x rest ih =>
    intro acc es hfil hnm
    rw [List.foldl_cons]
    by_cases hx : keyEq x.employeeId r.employeeId = true
    · have hfil2 : x = r ∧ rest.filter (fun x => keyEq x.employeeId r.employeeId) = [] := by
        rw [List.filter_cons] at hfil
        simp only [hx, if_true] at hfil
        simpa only [List.cons.injEq] using hfil
      obtain ⟨hxeq, hrest⟩ := hfil2
      subst hxeq
      have hempty : (employee_filtering_condition_fte_idx acc x.employeeId).isEmpty = true := by
        rw [hnm]
        rfl
      have hstep : identify_new_joiners_fte_step fday eo (acc, es) x =
          (acc, es ++ [buildEntryFTE x.employeeId x (Val.str fday) (Val.str eo) ("New Hire")]) := by
        simp only [identify_new_joiners_fte_step]
        rw [if_pos hempty]
      rw [hstep]
      rcases nj_fold_no_match fday eo x.employeeId rest acc
          (es ++ [buildEntryFTE x.employeeId x (Val.str fday) (Val.str eo) ("New Hire")])
          hrest with ⟨acc2, es2, heq, hlen, hfil3⟩
      refine ⟨acc2, es2, heq, hlen, ?_⟩
      rw [hfil3, List.filter_append]
      have hone : [buildEntryFTE x.employeeId x (Val.str fday) (Val.str eo) ("New Hire")].filter
          (fun q => keyEq q.employeeId x.employeeId) =
          [buildEntryFTE x.employeeId x (Val.str fday) (Val.str eo) ("New Hire")] := by
        simp [List.filter_cons, buildEntryFTE, keyEq]
      rw [hone]
    · have hx2 : keyEq x.employeeId r.employeeId = false := by simpa using hx
      have hrest : rest.filter (fun x => keyEq x.employeeId r.employeeId) = [r] := by
        simpa [List.filter_cons, hx2] using hfil
      by_cases hemp : (employee_filtering_condition_fte_idx acc x.employeeId).isEmpty = true
      · have hstep : identify_new_joiners_fte_step fday eo (acc, es) x =
            (acc, es ++ [buildEntryFTE x.employeeId x (Val.str fday) (Val.str eo) ("New Hire")]) := by
          simp only [identify_new_joiners_fte_step]
          rw [if_pos hemp]
        rw [hstep]
        rcases ih acc
            (es ++ [buildEntryFTE x.employeeId x (Val.str fday) (Val.str eo) ("New Hire")])
            hrest hnm with ⟨acc2, es2, heq, hlen, hfil3⟩
        refine ⟨acc2, es2, heq, hlen, ?_⟩
        rw [hfil3, List.filter_append]
        have hone : [buildEntryFTE x.employeeId x (Val.str fday) (Val.str eo) ("New Hire")].filter
            (fun q => keyEq q.employeeId r.employeeId) = [] := by
          simp [List.filter_cons, buildEntryFTE, hx2]
        rw [hone, List.append_nil]
      · have hstep : identify_new_joiners_fte_step fday eo (acc, es) x =
            (updRows (fun row =>
                { row with roleStatus := Val.str ("New Hire"), modified := Val.bool true })
              (employee_filtering_condition_fte_idx acc x.employeeId) acc, es) := by
          simp only [identify_new_joiners_fte_step]
          rw [if_neg hemp]
        rw [hstep]
        have hnm2 : employee_filtering_condition_fte_idx
            (updRows (fun row =>
                { row with roleStatus := Val.str ("New Hire"), modified := Val.bool true })
              (employee_filtering_condition_fte_idx acc x.employeeId) acc) r.employeeId = [] := by
          refine nomatch_preserved ?_ hx2 hnm
          intro row
          rfl
        rcases ih _ es hrest hnm2 with ⟨acc2, es2, heq, hlen, hfil3⟩
        refine ⟨acc2, es2, heq, ?_, hfil3⟩
        rw [hlen, length_updRows]

/-- C2 (counterexample): a pure new joiner produces exactly one appended
row with the claimed Start Date, End Date, Role Status and Modified flag,
but the declared plan column `'Input Annualised Stretch $ \n(if applicable)'`
is left as a missing value — the builder's defaults dictionary has no
entry for it — so not every declared column is populated. -/
theorem new_joiner_leaves_stretch_column_missing :
    c2Result.length = 1 ∧
    ("Input Annualised Stretch $ \n(if applicable)") ∈ OP_FTE_COLUMNS ∧
    rowCell (c2Result.getD 0 emptyEntryFTE) ("Input Annualised Stretch $ \n(if applicable)")
      = Val.na ∧
    (c2Result.getD 0 emptyEntryFTE).roleStatus = Val.str ("New Hire") ∧
    (c2Result.getD 0 emptyEntryFTE).startDate = Val.str ("Jun-24") ∧
    (c2Result.getD 0 emptyEntryFTE).endDate = Val.str ("Sep-24") ∧
    (c2Result.getD 0 emptyEntryFTE).modified = Val.bool true := by
  decide

/-- C2 (amended): for an employee `r`, unique in the next snapshot's
Security+FTE filtered set, absent from the current snapshot, with no
Strict-matched plan row, the New Joiner detector appends rows after the
input table, and among the appended rows exactly one carries `r`'s
Employee ID: the freshly built entry with Start Date the period-start
label, End Date the financial-year-end label, Role Status `'New Hire'`,
Modified `True`, and every declared plan column populated EXCEPT
`'Input Annualised Stretch $ \n(if applicable)'`, which stays missing. -/
theorem new_joiner_single_complete_entry
    (current next : List StaticRow) (op : List OpRow)
    (lbl ls : String) (sd today : SDate) (r : StaticRow)
    (hparse : parseMonYY ls = some sd)
    (huniq : (employee_security_fte next).filter
        (fun x => keyEq x.employeeId r.employeeId) = [r])
    (habsent : ∀ c ∈ current, keyEq c.employeeId r.employeeId = false)
    (hnomatch : employee_filtering_condition_fte_idx op r.employeeId = [])
    (hid : r.employeeId ≠ Val.na)
    (hrt : r.resourceType ≠ Val.na) (hlan : r.lanid ≠ Val.na)
    (hrty : r.roleType ≠ Val.na) (hjg : r.jobGrade ≠ Val.na)
    (hctry : r.planningUnitCountry ≠ Val.na) (hdom : r.domain ≠ Val.na)
    (hta : r.techArea ≠ Val.na) (hfn : r.fteNum ≠ Val.na) :
    ∃ pre app, identify_new_joiners_fte current next op (lbl, ls) today = pre ++ app ∧
      pre.length = op.length ∧
      app.filter (fun q => keyEq q.employeeId r.employeeId)
        = [buildEntryFTE r.employeeId r (Val.str (fmtMonYY sd))
            (Val.str (fmtMonYY (get_eofy today))) ("New Hire")] ∧
      (buildEntryFTE r.employeeId r (Val.str (fmtMonYY sd))
          (Val.str (fmtMonYY (get_eofy today))) ("New Hire")).startDate
        = Val.str (fmtMonYY sd) ∧
      (buildEntryFTE r.employeeId r (Val.str (fmtMonYY sd))
          (Val.str (fmtMonYY (get_eofy today))) ("New Hire")).endDate
        = Val.str (fmtMonYY (get_eofy today)) ∧
      (buildEntryFTE r.employeeId r (Val.str (fmtMonYY sd))
          (Val.str (fmtMonYY (get_eofy today))) ("New Hire")).roleStatus
        = Val.str ("New Hire") ∧
      (buildEntryFTE r.employeeId r (Val.str (fmtMonYY sd))
          (Val.str (fmtMonYY (get_eofy today))) ("New Hire")).modified
        = Val.bool true ∧
      (∀ c ∈ OP_FTE_COLUMNS, c ≠ ("Input Annualised Stretch $ \n(if applicable)") →
        rowCell (buildEntryFTE r.employeeId r (Val.str (fmtMonYY sd))
          (Val.str (fmtMonYY (get_eofy today))) ("New Hire")) c ≠ Val.na) := by
  have hany : current.any (fun c => keyEq c.employeeId r.employeeId) = false := by
    by_contra hcon
    have h1 : current.any (fun c => keyEq c.employeeId r.employeeId) = true := by
      simpa using hcon
    rcases List.any_eq_true.mp h1 with ⟨c, hc, hk⟩
    rw [habsent c hc] at hk
    cases hk
  have hq2 : (cwrNotSecurity current).any (fun c => keyEq c.employeeId r.employeeId) = false := by
    by_contra hcon
    have h1 : (cwrNotSecurity current).any (fun c => keyEq c.employeeId r.employeeId) = true := by
      simpa using hcon
    rcases List.any_eq_true.mp h1 with ⟨c, hc, hk⟩
    have hc2 : c ∈ current := (List.mem_filter.mp hc).1
    rw [habsent c hc2] at hk
    cases hk
  have hA : ((employee_security_fte next).filter
      (fun x => !(current.any (fun c => keyEq c.employeeId x.employeeId)))).filter
        (fun x => keyEq x.employeeId r.employeeId) = [r] := by
    rw [List.filter_comm, huniq]
    simp [List.filter_cons, hany]
  have hB : ((employee_security_fte next).filter
      (fun x => (cwrNotSecurity current).any (fun c => keyEq c.employeeId x.employeeId))).filter
        (fun x => keyEq x.employeeId r.employeeId) = [] := by
    rw [List.filter_comm, huniq]
    simp [List.filter_cons, hq2]
  have hfilter : (new_joiners_of current next).filter
      (fun x => keyEq x.employeeId r.employeeId) = [r] := by
    unfold new_joiners_of
    rw [List.filter_append, hA, hB]
    rfl
  rcases nj_fold_spec (fmtMonYY sd) (fmtMonYY (get_eofy today)) r
      (new_joiners_of current next) op [] hfilter hnomatch with ⟨acc2, es2, heq, hlen, hfil2⟩
  have hfil3 : es2.filter (fun q => keyEq q.employeeId r.employeeId)
      = [buildEntryFTE r.employeeId r (Val.str (fmtMonYY sd))
          (Val.str (fmtMonYY (get_eofy today))) ("New Hire")] := by
    simpa using hfil2
  have hne : es2.isEmpty = false := by
    cases es2 with
    | nil => simp at hfil3
    | cons a l => rfl
  refine ⟨acc2, es2, ?_, hlen, hfil3, rfl, rfl, rfl, rfl, ?_⟩
  · simp only [identify_new_joiners_fte]
    rw [hparse]
    show add_new_entries_fte
        ((new_joiners_of current next).foldl
          (identify_new_joiners_fte_step (fmtMonYY sd) (fmtMonYY (get_eofy today))) (op, [])).1
        ((new_joiners_of current next).foldl
          (identify_new_joiners_fte_step (fmtMonYY sd) (fmtMonYY (get_eofy today))) (op, [])).2
      = acc2 ++ es2
    rw [heq]
    unfold add_new_entries_fte
    rw [if_neg (by simp [hne])]
  · exact buildEntryFTE_populated r.employeeId r (Val.str (fmtMonYY sd))
      (Val.str (fmtMonYY (get_eofy today))) ("New Hire") hid (by simp) (by simp)
      hrt hlan hrty hjg hctry hdom hta hfn

theorem new_joiner_single_complete_entry_witness :
    ∃ pre app,
      identify_new_joiners_fte [] [empAliceP5] [] (("May-24"), ("Jun-24")) ⟨2024, 6, 15⟩
        = pre ++ app ∧
      pre.length = ([] : List OpRow).length ∧
      app.filter (fun q => keyEq q.employeeId empAliceP5.employeeId)
        = [buildEntryFTE empAliceP5.employeeId empAliceP5 (Val.str (fmtMonYY ⟨2024, 6, 1⟩))
            (Val.str (fmtMonYY (get_eofy ⟨2024, 6, 15⟩))) ("New Hire")] := by
  rcases new_joiner_single_complete_entry [] [empAliceP5] [] ("May-24") ("Jun-24")
      ⟨2024, 6, 1⟩ ⟨2024, 6, 15⟩ empAliceP5 (by decide) (by decide) (by decide) (by decide)
      (by decide) (by decide) (by decide) (by decide) (by decide) (by decide) (by decide)
      (by decide) (by decide) with ⟨pre, app, h1, h2, h3, _⟩
  exact ⟨pre, app, h1, h2, h3⟩
